import Mathlib

/-!
Verification development for the communication gateway's multi-provider
dispatch and delivery-log layer.

The embedding mirrors the JavaScript sources:
* EmailRepository / SmsRepository (Prisma tables EmailLog / SmsLog) become
  explicit stores: a list of rows plus a next-id counter standing for the
  SERIAL primary key.  Repository methods become pure functions on stores.
* EmailService.sendEmail / SmsService.sendSms and the bulk and retry flows
  become state-passing functions parameterised by a vendor oracle
  (the emailConfig.sendEmail / smsConfig.sendSms adapter call), which maps an
  adapter request to either a message id or a thrown error message.
* Service functions are instrumented to also return the ordered list of
  primitive events they perform (log creation, adapter invocation with the
  store snapshot at call time, log status update with the row's prior
  status), so temporal and invariant claims can be stated over traces.
* Timestamps (createdAt, updatedAt, Date.now()) are integer milliseconds
  supplied by the caller, one clock value per operation.
-/

/-- Status column of EmailLog / SmsLog rows (strings pending / sent / failed
in the database). -/
inductive Status
  | pending
  | sent
  | failed
deriving DecidableEq, Repr

/-- One row of the EmailLog table (prisma schema: id SERIAL, tenantId, to,
subject, body, status, provider, errorMessage, createdAt, updatedAt).  The
column named to is rendered toAddr. -/
structure EmailLog where
  id : Nat
  tenantId : Int
  toAddr : String
  subject : String
  body : String
  status : Status
  provider : Option String
  errorMessage : Option String
  createdAt : Int
  updatedAt : Int
deriving DecidableEq, Repr

/-- The EmailLog table: rows in insertion order plus the next SERIAL id. -/
structure EmailStore where
  rows : List EmailLog
  nextId : Nat
deriving DecidableEq, Repr

/-- Lookup by primary key, as prisma findUnique / update's where id clause. -/
def findEmailRow (id : Nat) (rows : List EmailLog) : Option EmailLog :=
  rows.find? (fun r => r.id == id)

/-- Well-formedness of the table: primary keys are distinct and below the
next SERIAL value.  Any store reachable from an empty table satisfies it. -/
def EmailStore.WF (s : EmailStore) : Prop :=
  (s.rows.map EmailLog.id).Nodup ∧ ∀ r ∈ s.rows, r.id < s.nextId

/-- Input record of EmailRepository.createEmailLog (emailData). -/
structure CreateEmailData where
  tenantId : Int
  toAddr : String
  subject : String
  body : String
  status : Option Status
  provider : Option String
  errorMessage : Option String

/-- EmailRepository.createEmailLog: inserts a fresh row, defaulting status
to pending, and returns the created row. -/
def createEmailLog (now : Int) (d : CreateEmailData) (s : EmailStore) :
    EmailLog × EmailStore :=
  let row : EmailLog :=
    { id := s.nextId, tenantId := d.tenantId, toAddr := d.toAddr,
      subject := d.subject, body := d.body,
      status := d.status.getD Status.pending, provider := d.provider,
      errorMessage := d.errorMessage, createdAt := now, updatedAt := now }
  (row, { rows := s.rows ++ [row], nextId := s.nextId + 1 })

/-- Effect of EmailRepository.updateEmailLogStatus on a single row: the row
with the matching id gets the new status and errorMessage and a fresh
updatedAt; every other row is untouched. -/
def updEmailRow (now : Int) (id : Nat) (st : Status) (err : Option String)
    (r : EmailLog) : EmailLog :=
  if r.id == id then
    { r with status := st, errorMessage := err, updatedAt := now }
  else r

/-- EmailRepository.updateEmailLogStatus (prisma update where id): sets
status, errorMessage and updatedAt on the row with the given id. -/
def updateEmailLogStatus (now : Int) (id : Nat) (st : Status)
    (err : Option String) (s : EmailStore) : EmailStore :=
  { s with rows := s.rows.map (updEmailRow now id st err) }

/-- Request record passed to the email adapter emailConfig.sendEmail. -/
structure EmailReq where
  toAddr : String
  subject : String
  body : String
  html : Option String
  provider : Option String
deriving DecidableEq, Repr

/-- The vendor adapter call: either a message id or a thrown error whose
message is the payload of the error branch. -/
def EmailVendor : Type := EmailReq → Except String String

/-- Input record of EmailService.sendEmail (emailData). -/
structure EmailData where
  tenantId : Int
  toAddr : String
  subject : String
  body : String
  html : Option String
  provider : Option String

/-- Adapter request built by EmailService.sendEmail from its input. -/
def reqOfEmailData (d : EmailData) : EmailReq :=
  { toAddr := d.toAddr, subject := d.subject, body := d.body,
    html := d.html, provider := d.provider }

/-- Primitive events performed by the email service flows, in program
order.  adapterCalled carries the store snapshot at the moment the adapter
call is issued; logUpdated carries the target row's status just before the
update. -/
inductive EmailEvent
  | logCreated (id : Nat) (st : Status)
  | adapterCalled (id : Nat) (req : EmailReq) (storeAtCall : EmailStore)
  | logUpdated (id : Nat) (before : Option Status) (after : Status)
deriving DecidableEq, Repr

/-- Success payload returned by EmailService.sendEmail. -/
structure SendEmailOk where
  emailLogId : Nat
  messageId : String
deriving DecidableEq, Repr

/-- EmailService.sendEmail, instrumented: create a pending log row, call the
adapter, then update the row to sent, or on a thrown adapter error update it
to failed with the error's message and re-raise the error.  Returns the
outcome, the final store, and the event trace. -/
def sendEmailT (vendor : EmailVendor) (now : Int) (d : EmailData)
    (s : EmailStore) :
    Except String SendEmailOk × EmailStore × List EmailEvent :=
  let created := createEmailLog now
    { tenantId := d.tenantId, toAddr := d.toAddr, subject := d.subject,
      body := d.body, status := some Status.pending, provider := d.provider,
      errorMessage := none } s
  let emailLog := created.1
  let s1 := created.2
  let req := reqOfEmailData d
  match vendor req with
  | Except.ok mid =>
      (Except.ok { emailLogId := emailLog.id, messageId := mid },
       updateEmailLogStatus now emailLog.id Status.sent none s1,
       [EmailEvent.logCreated emailLog.id Status.pending,
        EmailEvent.adapterCalled emailLog.id req s1,
        EmailEvent.logUpdated emailLog.id
          ((findEmailRow emailLog.id s1.rows).map EmailLog.status)
          Status.sent])
  | Except.error msg =>
      (Except.error msg,
       updateEmailLogStatus now emailLog.id Status.failed (some msg) s1,
       [EmailEvent.logCreated emailLog.id Status.pending,
        EmailEvent.adapterCalled emailLog.id req s1,
        EmailEvent.logUpdated emailLog.id
          ((findEmailRow emailLog.id s1.rows).map EmailLog.status)
          Status.failed])

/-- EmailService.sendEmail without the instrumentation. -/
def sendEmail (vendor : EmailVendor) (now : Int) (d : EmailData)
    (s : EmailStore) : Except String SendEmailOk × EmailStore :=
  let r := sendEmailT vendor now d s
  (r.1, r.2.1)

/-! Basic lemmas about row lookup, update and insertion. -/

theorem updEmailRow_id (now : Int) (id : Nat) (st : Status)
    (err : Option String) (r : EmailLog) :
    (updEmailRow now id st err r).id = r.id := by
  unfold updEmailRow
  split <;> rfl

theorem findEmailRow_map_upd_ne (now : Int) (id j : Nat) (st : Status)
    (err : Option String) (rows : List EmailLog) (h : j ≠ id) :
    findEmailRow j (rows.map (updEmailRow now id st err)) =
      findEmailRow j rows := by
  induction rows with
  | nil => rfl
  | cons r rows ih =>
      by_cases hr : r.id = j
      · have hupd : updEmailRow now id st err r = r := by
          have hne : ¬ r.id = id := fun hc => h (hr.symm.trans hc)
          simp [updEmailRow, hne]
        simp only [findEmailRow, List.map_cons, hupd]
        rw [List.find?_cons_of_pos _ (by simp [hr]),
          List.find?_cons_of_pos _ (by simp [hr])]
      · simp only [findEmailRow, List.map_cons] at *
        rw [List.find?_cons_of_neg _ (by simp [updEmailRow_id, hr]),
          List.find?_cons_of_neg _ (by simp [hr])]
        exact ih

theorem findEmailRow_map_upd_eq (now : Int) (id : Nat) (st : Status)
    (err : Option String) (rows : List EmailLog) :
    findEmailRow id (rows.map (updEmailRow now id st err)) =
      (findEmailRow id rows).map
        (fun r => { r with status := st, errorMessage := err,
                           updatedAt := now }) := by
  induction rows with
  | nil => rfl
  | cons r rows ih =>
      by_cases hr : r.id = id
      · simp only [findEmailRow, List.map_cons] at *
        rw [List.find?_cons_of_pos _ (by simp [updEmailRow_id, hr]),
          List.find?_cons_of_pos _ (by simp [hr])]
        simp [updEmailRow, hr]
      · simp only [findEmailRow, List.map_cons] at *
        rw [List.find?_cons_of_neg _ (by simp [updEmailRow_id, hr]),
          List.find?_cons_of_neg _ (by simp [hr])]
        exact ih

theorem findEmailRow_append_left {j : Nat} {rows : List EmailLog}
    {r : EmailLog} (l2 : List EmailLog) (h : findEmailRow j rows = some r) :
    findEmailRow j (rows ++ l2) = some r := by
  unfold findEmailRow at *
  rw [List.find?_append, h]
  rfl

theorem findEmailRow_append_right {j : Nat} {rows : List EmailLog}
    (l2 : List EmailLog) (h : findEmailRow j rows = none) :
    findEmailRow j (rows ++ l2) = findEmailRow j l2 := by
  unfold findEmailRow at *
  rw [List.find?_append, h]
  rfl

theorem findEmailRow_none_of_fresh {rows : List EmailLog} {n : Nat}
    (h : ∀ r ∈ rows, r.id < n) : findEmailRow n rows = none := by
  induction rows with
  | nil => rfl
  | cons x rows ih =>
      have hx : x.id < n := h x (List.mem_cons_self ..)
      have hxne : ¬ x.id = n := Nat.ne_of_lt hx
      unfold findEmailRow at *
      rw [List.find?_cons_of_neg _ (by simp [hxne])]
      exact ih (fun r hr => h r (List.mem_cons_of_mem _ hr))

theorem findEmailRow_mem {j : Nat} {rows : List EmailLog} {r : EmailLog}
    (h : findEmailRow j rows = some r) : r ∈ rows ∧ r.id = j := by
  have hm := List.mem_of_find?_eq_some h
  have hp := List.find?_some h
  exact ⟨hm, by simpa using hp⟩

theorem findEmailRow_snoc_fresh (rows : List EmailLog) (row : EmailLog)
    (h : ∀ r ∈ rows, r.id < row.id) :
    findEmailRow row.id (rows ++ [row]) = some row := by
  rw [findEmailRow_append_right _ (findEmailRow_none_of_fresh h)]
  simp [findEmailRow]

/-! The SmsRepository / SmsService mirror: the SmsLog table has columns
phone and message in place of to, subject, body; the control flow of
createSmsLog, updateSmsLogStatus and SmsService.sendSms is identical to the
email side. -/

/-- One row of the SmsLog table. -/
structure SmsLog where
  id : Nat
  tenantId : Int
  phone : String
  message : String
  status : Status
  provider : Option String
  errorMessage : Option String
  createdAt : Int
  updatedAt : Int
deriving DecidableEq, Repr

/-- The SmsLog table. -/
structure SmsStore where
  rows : List SmsLog
  nextId : Nat
deriving DecidableEq, Repr

/-- Lookup by primary key in the SmsLog table. -/
def findSmsRow (id : Nat) (rows : List SmsLog) : Option SmsLog :=
  rows.find? (fun r => r.id == id)

/-- Well-formedness of the SmsLog table. -/
def SmsStore.WF (s : SmsStore) : Prop :=
  (s.rows.map SmsLog.id).Nodup ∧ ∀ r ∈ s.rows, r.id < s.nextId

/-- Input record of SmsRepository.createSmsLog. -/
structure CreateSmsData where
  tenantId : Int
  phone : String
  message : String
  status : Option Status
  provider : Option String
  errorMessage : Option String

/-- SmsRepository.createSmsLog: inserts a fresh row, defaulting status to
pending, and returns the created row. -/
def createSmsLog (now : Int) (d : CreateSmsData) (s : SmsStore) :
    SmsLog × SmsStore :=
  let row : SmsLog :=
    { id := s.nextId, tenantId := d.tenantId, phone := d.phone,
      message := d.message, status := d.status.getD Status.pending,
      provider := d.provider, errorMessage := d.errorMessage,
      createdAt := now, updatedAt := now }
  (row, { rows := s.rows ++ [row], nextId := s.nextId + 1 })

/-- Per-row effect of SmsRepository.updateSmsLogStatus. -/
def updSmsRow (now : Int) (id : Nat) (st : Status) (err : Option String)
    (r : SmsLog) : SmsLog :=
  if r.id == id then
    { r with status := st, errorMessage := err, updatedAt := now }
  else r

/-- SmsRepository.updateSmsLogStatus. -/
def updateSmsLogStatus (now : Int) (id : Nat) (st : Status)
    (err : Option String) (s : SmsStore) : SmsStore :=
  { s with rows := s.rows.map (updSmsRow now id st err) }

/-- Request record passed to the SMS adapter smsConfig.sendSms. -/
structure SmsReq where
  phoneNumber : String
  message : String
  provider : Option String
deriving DecidableEq, Repr

/-- The SMS vendor adapter call. -/
def SmsVendor : Type := SmsReq → Except String String

/-- Input record of SmsService.sendSms (smsData). -/
structure SmsData where
  tenantId : Int
  phoneNumber : String
  message : String
  provider : Option String

/-- Adapter request built by SmsService.sendSms from its input. -/
def reqOfSmsData (d : SmsData) : SmsReq :=
  { phoneNumber := d.phoneNumber, message := d.message,
    provider := d.provider }

/-- Primitive events of the SMS service flows. -/
inductive SmsEvent
  | logCreated (id : Nat) (st : Status)
  | adapterCalled (id : Nat) (req : SmsReq) (storeAtCall : SmsStore)
  | logUpdated (id : Nat) (before : Option Status) (after : Status)
deriving DecidableEq, Repr

/-- Success payload returned by SmsService.sendSms. -/
structure SendSmsOk where
  smsLogId : Nat
  messageId : String
deriving DecidableEq, Repr

/-- SmsService.sendSms, instrumented exactly as sendEmailT. -/
def sendSmsT (vendor : SmsVendor) (now : Int) (d : SmsData)
    (s : SmsStore) : Except String SendSmsOk × SmsStore × List SmsEvent :=
  let created := createSmsLog now
    { tenantId := d.tenantId, phone := d.phoneNumber, message := d.message,
      status := some Status.pending, provider := d.provider,
      errorMessage := none } s
  let smsLog := created.1
  let s1 := created.2
  let req := reqOfSmsData d
  match vendor req with
  | Except.ok mid =>
      (Except.ok { smsLogId := smsLog.id, messageId := mid },
       updateSmsLogStatus now smsLog.id Status.sent none s1,
       [SmsEvent.logCreated smsLog.id Status.pending,
        SmsEvent.adapterCalled smsLog.id req s1,
        SmsEvent.logUpdated smsLog.id
          ((findSmsRow smsLog.id s1.rows).map SmsLog.status) Status.sent])
  | Except.error msg =>
      (Except.error msg,
       updateSmsLogStatus now smsLog.id Status.failed (some msg) s1,
       [SmsEvent.logCreated smsLog.id Status.pending,
        SmsEvent.adapterCalled smsLog.id req s1,
        SmsEvent.logUpdated smsLog.id
          ((findSmsRow smsLog.id s1.rows).map SmsLog.status) Status.failed])

/-- SmsService.sendSms without the instrumentation. -/
def sendSms (vendor : SmsVendor) (now : Int) (d : SmsData) (s : SmsStore) :
    Except String SendSmsOk × SmsStore :=
  let r := sendSmsT vendor now d s
  (r.1, r.2.1)

theorem updSmsRow_id (now : Int) (id : Nat) (st : Status)
    (err : Option String) (r : SmsLog) :
    (updSmsRow now id st err r).id = r.id := by
  unfold updSmsRow
  split <;> rfl

theorem findSmsRow_map_upd_ne (now : Int) (id j : Nat) (st : Status)
    (err : Option String) (rows : List SmsLog) (h : j ≠ id) :
    findSmsRow j (rows.map (updSmsRow now id st err)) =
      findSmsRow j rows := by
  induction rows with
  | nil => rfl
  | cons r rows ih =>
      by_cases hr : r.id = j
      · have hupd : updSmsRow now id st err r = r := by
          have hne : ¬ r.id = id := fun hc => h (hr.symm.trans hc)
          simp [updSmsRow, hne]
        simp only [findSmsRow, List.map_cons, hupd]
        rw [List.find?_cons_of_pos _ (by simp [hr]),
          List.find?_cons_of_pos _ (by simp [hr])]
      · simp only [findSmsRow, List.map_cons] at *
        rw [List.find?_cons_of_neg _ (by simp [updSmsRow_id, hr]),
          List.find?_cons_of_neg _ (by simp [hr])]
        exact ih

theorem findSmsRow_map_upd_eq (now : Int) (id : Nat) (st : Status)
    (err : Option String) (rows : List SmsLog) :
    findSmsRow id (rows.map (updSmsRow now id st err)) =
      (findSmsRow id rows).map
        (fun r => { r with status := st, errorMessage := err,
                           updatedAt := now }) := by
  induction rows with
  | nil => rfl
  | cons r rows ih =>
      by_cases hr : r.id = id
      · simp only [findSmsRow, List.map_cons] at *
        rw [List.find?_cons_of_pos _ (by simp [updSmsRow_id, hr]),
          List.find?_cons_of_pos _ (by simp [hr])]
        simp [updSmsRow, hr]
      · simp only [findSmsRow, List.map_cons] at *
        rw [List.find?_cons_of_neg _ (by simp [updSmsRow_id, hr]),
          List.find?_cons_of_neg _ (by simp [hr])]
        exact ih

theorem findSmsRow_append_right {j : Nat} {rows : List SmsLog}
    (l2 : List SmsLog) (h : findSmsRow j rows = none) :
    findSmsRow j (rows ++ l2) = findSmsRow j l2 := by
  unfold findSmsRow at *
  rw [List.find?_append, h]
  rfl

theorem findSmsRow_none_of_fresh {rows : List SmsLog} {n : Nat}
    (h : ∀ r ∈ rows, r.id < n) : findSmsRow n rows = none := by
  induction rows with
  | nil => rfl
  | cons x rows ih =>
      have hx : x.id < n := h x (List.mem_cons_self ..)
      have hxne : ¬ x.id = n := Nat.ne_of_lt hx
      unfold findSmsRow at *
      rw [List.find?_cons_of_neg _ (by simp [hxne])]
      exact ih (fun r hr => h r (List.mem_cons_of_mem _ hr))

theorem findSmsRow_snoc_fresh (rows : List SmsLog) (row : SmsLog)
    (h : ∀ r ∈ rows, r.id < row.id) :
    findSmsRow row.id (rows ++ [row]) = some row := by
  rw [findSmsRow_append_right _ (findSmsRow_none_of_fresh h)]
  simp [findSmsRow]

/-! Claim C1: adapter failure is recorded on the log and re-raised. -/

theorem sendEmail_error_store {vendor : EmailVendor} {d : EmailData}
    {msg : String} (now : Int) (s : EmailStore)
    (hwf : ∀ r ∈ s.rows, r.id < s.nextId)
    (h : vendor (reqOfEmailData d) = Except.error msg) :
    findEmailRow s.nextId (sendEmail vendor now d s).2.rows =
      some { id := s.nextId, tenantId := d.tenantId, toAddr := d.toAddr,
             subject := d.subject, body := d.body, status := Status.failed,
             provider := d.provider, errorMessage := some msg,
             createdAt := now, updatedAt := now } := by
  simp only [sendEmail, sendEmailT, createEmailLog, h]
  simp only [updateEmailLogStatus, List.map_append]
  rw [findEmailRow_append_right _ (findEmailRow_none_of_fresh ?fresh)]
  case fresh =>
    intro r hr
    obtain ⟨r0, hr0, hrid⟩ := List.mem_map.mp hr
    rw [← hrid, updEmailRow_id]
    exact hwf r0 hr0
  simp [findEmailRow, updEmailRow]

theorem sendSms_error_store {vendor : SmsVendor} {d : SmsData}
    {msg : String} (now : Int) (s : SmsStore)
    (hwf : ∀ r ∈ s.rows, r.id < s.nextId)
    (h : vendor (reqOfSmsData d) = Except.error msg) :
    findSmsRow s.nextId (sendSms vendor now d s).2.rows =
      some { id := s.nextId, tenantId := d.tenantId, phone := d.phoneNumber,
             message := d.message, status := Status.failed,
             provider := d.provider, errorMessage := some msg,
             createdAt := now, updatedAt := now } := by
  simp only [sendSms, sendSmsT, createSmsLog, h]
  simp only [updateSmsLogStatus, List.map_append]
  rw [findSmsRow_append_right _ (findSmsRow_none_of_fresh ?fresh)]
  case fresh =>
    intro r hr
    obtain ⟨r0, hr0, hrid⟩ := List.mem_map.mp hr
    rw [← hrid, updSmsRow_id]
    exact hwf r0 hr0
  simp [findSmsRow, updSmsRow]

/-- C1: for every sendOne call (email sendEmail or SMS sendSms) in which the
provider adapter call throws, the just-created delivery log row (primary key
nextId of the pre-call store) ends with status failed and errorDetail equal
to the thrown error's message, and the same error is re-raised to the
caller. -/
theorem claim1_sendOne_failure_recorded_and_reraised
    (evendor : EmailVendor) (svendor : SmsVendor) (nowE nowS : Int)
    (d : EmailData) (ds : SmsData) (s : EmailStore) (ss : SmsStore)
    (emsg smsg : String)
    (hwfE : EmailStore.WF s) (hwfS : SmsStore.WF ss)
    (hE : evendor (reqOfEmailData d) = Except.error emsg)
    (hS : svendor (reqOfSmsData ds) = Except.error smsg) :
    ((sendEmail evendor nowE d s).1 = Except.error emsg ∧
      ∃ r, findEmailRow s.nextId (sendEmail evendor nowE d s).2.rows =
          some r ∧
        r.status = Status.failed ∧ r.errorMessage = some emsg) ∧
    ((sendSms svendor nowS ds ss).1 = Except.error smsg ∧
      ∃ r, findSmsRow ss.nextId (sendSms svendor nowS ds ss).2.rows =
          some r ∧
        r.status = Status.failed ∧ r.errorMessage = some smsg) := by
  refine ⟨⟨?_, ?_⟩, ?_, ?_⟩
  · simp [sendEmail, sendEmailT, hE]
  · exact ⟨_, sendEmail_error_store nowE s hwfE.2 hE, rfl, rfl⟩
  · simp [sendSms, sendSmsT, hS]
  · exact ⟨_, sendSms_error_store nowS ss hwfS.2 hS, rfl, rfl⟩

/-- Vendor oracle that always throws, used as a concrete witness input. -/
def emailVendorDown : EmailVendor := fun _ => Except.error "smtp down"

/-- SMS vendor oracle that always throws. -/
def smsVendorDown : SmsVendor := fun _ => Except.error "twilio down"

/-- Concrete email request used in witnesses. -/
def emailDataEx : EmailData :=
  { tenantId := 1, toAddr := "user@example.com", subject := "Hi",
    body := "Test", html := none, provider := some "smtp" }

/-- Concrete SMS request used in witnesses. -/
def smsDataEx : SmsData :=
  { tenantId := 1, phoneNumber := "+15550001111", message := "Test",
    provider := some "twilio" }

/-- Empty EmailLog table. -/
def emptyEmailStore : EmailStore := { rows := [], nextId := 1 }

/-- Empty SmsLog table. -/
def emptySmsStore : SmsStore := { rows := [], nextId := 1 }

theorem claim1_witness :
    EmailStore.WF emptyEmailStore ∧ SmsStore.WF emptySmsStore ∧
    emailVendorDown (reqOfEmailData emailDataEx) =
      Except.error "smtp down" ∧
    smsVendorDown (reqOfSmsData smsDataEx) = Except.error "twilio down" ∧
    (((sendEmail emailVendorDown 0 emailDataEx emptyEmailStore).1 =
        Except.error "smtp down" ∧
      ∃ r, findEmailRow emptyEmailStore.nextId
          (sendEmail emailVendorDown 0 emailDataEx emptyEmailStore).2.rows =
            some r ∧
        r.status = Status.failed ∧ r.errorMessage = some "smtp down") ∧
     ((sendSms smsVendorDown 0 smsDataEx emptySmsStore).1 =
        Except.error "twilio down" ∧
      ∃ r, findSmsRow emptySmsStore.nextId
          (sendSms smsVendorDown 0 smsDataEx emptySmsStore).2.rows =
            some r ∧
        r.status = Status.failed ∧ r.errorMessage = some "twilio down")) :=
  ⟨⟨by simp [emptyEmailStore], by simp [emptyEmailStore]⟩,
   ⟨by simp [emptySmsStore], by simp [emptySmsStore]⟩,
   rfl, rfl,
   claim1_sendOne_failure_recorded_and_reraised emailVendorDown smsVendorDown
     0 0 emailDataEx smsDataEx emptyEmailStore emptySmsStore
     "smtp down" "twilio down"
     ⟨by simp [emptyEmailStore], by simp [emptyEmailStore]⟩
     ⟨by simp [emptySmsStore], by simp [emptySmsStore]⟩ rfl rfl⟩

/-! Claim C2: the pending log row is created strictly before the adapter
call is issued. -/

theorem createEmailLog_lookup (now : Int) (d : CreateEmailData)
    (s : EmailStore) (hwf : ∀ r ∈ s.rows, r.id < s.nextId) :
    findEmailRow s.nextId (createEmailLog now d s).2.rows =
      some (createEmailLog now d s).1 := by
  have h2 : ∀ r ∈ s.rows, r.id < (createEmailLog now d s).1.id := hwf
  exact findEmailRow_snoc_fresh s.rows (createEmailLog now d s).1 h2

theorem createSmsLog_lookup (now : Int) (d : CreateSmsData) (s : SmsStore)
    (hwf : ∀ r ∈ s.rows, r.id < s.nextId) :
    findSmsRow s.nextId (createSmsLog now d s).2.rows =
      some (createSmsLog now d s).1 := by
  have h2 : ∀ r ∈ s.rows, r.id < (createSmsLog now d s).1.id := hwf
  exact findSmsRow_snoc_fresh s.rows (createSmsLog now d s).1 h2

/-- C2: in every sendOne trace (email or SMS), any adapterCalled event is
strictly preceded by the logCreated event for the same row id, and the store
snapshot at the moment the adapter call is issued already contains a pending
row with that id; so the adapter is never invoked for an attempt without a
log row. -/
theorem claim2_log_created_before_adapter_call
    (evendor : EmailVendor) (svendor : SmsVendor) (nowE nowS : Int)
    (d : EmailData) (ds : SmsData) (s : EmailStore) (ss : SmsStore)
    (hwfE : EmailStore.WF s) (hwfS : SmsStore.WF ss) :
    (∀ i id req s1,
       (sendEmailT evendor nowE d s).2.2.get? i =
         some (EmailEvent.adapterCalled id req s1) →
       (∃ j, j < i ∧ (sendEmailT evendor nowE d s).2.2.get? j =
          some (EmailEvent.logCreated id Status.pending)) ∧
       ∃ r, findEmailRow id s1.rows = some r ∧ r.status = Status.pending) ∧
    (∀ i id req s1,
       (sendSmsT svendor nowS ds ss).2.2.get? i =
         some (SmsEvent.adapterCalled id req s1) →
       (∃ j, j < i ∧ (sendSmsT svendor nowS ds ss).2.2.get? j =
          some (SmsEvent.logCreated id Status.pending)) ∧
       ∃ r, findSmsRow id s1.rows = some r ∧ r.status = Status.pending) := by
  constructor
  · intro i id req s1 hi
    cases hv : evendor (reqOfEmailData d) with
    | ok mid =>
        simp only [sendEmailT, createEmailLog, hv] at hi
        rcases i with _ | _ | _ | i
        · simp at hi
        · simp only [List.get?] at hi
          rw [Option.some_inj] at hi
          cases hi
          refine ⟨⟨0, Nat.zero_lt_one, by simp [sendEmailT, createEmailLog, hv]⟩, ?_⟩
          exact ⟨_, createEmailLog_lookup nowE
            { tenantId := d.tenantId, toAddr := d.toAddr,
              subject := d.subject, body := d.body,
              status := some Status.pending, provider := d.provider,
              errorMessage := none } s hwfE.2, rfl⟩
        · simp at hi
        · simp at hi
    | error msg =>
        simp only [sendEmailT, createEmailLog, hv] at hi
        rcases i with _ | _ | _ | i
        · simp at hi
        · simp only [List.get?] at hi
          rw [Option.some_inj] at hi
          cases hi
          refine ⟨⟨0, Nat.zero_lt_one, by simp [sendEmailT, createEmailLog, hv]⟩, ?_⟩
          exact ⟨_, createEmailLog_lookup nowE
            { tenantId := d.tenantId, toAddr := d.toAddr,
              subject := d.subject, body := d.body,
              status := some Status.pending, provider := d.provider,
              errorMessage := none } s hwfE.2, rfl⟩
        · simp at hi
        · simp at hi
  · intro i id req s1 hi
    cases hv : svendor (reqOfSmsData ds) with
    | ok mid =>
        simp only [sendSmsT, createSmsLog, hv] at hi
        rcases i with _ | _ | _ | i
        · simp at hi
        · simp only [List.get?] at hi
          rw [Option.some_inj] at hi
          cases hi
          refine ⟨⟨0, Nat.zero_lt_one, by simp [sendSmsT, createSmsLog, hv]⟩, ?_⟩
          exact ⟨_, createSmsLog_lookup nowS
            { tenantId := ds.tenantId, phone := ds.phoneNumber,
              message := ds.message, status := some Status.pending,
              provider := ds.provider, errorMessage := none } ss
            hwfS.2, rfl⟩
        · simp at hi
        · simp at hi
    | error msg =>
        simp only [sendSmsT, createSmsLog, hv] at hi
        rcases i with _ | _ | _ | i
        · simp at hi
        · simp only [List.get?] at hi
          rw [Option.some_inj] at hi
          cases hi
          refine ⟨⟨0, Nat.zero_lt_one, by simp [sendSmsT, createSmsLog, hv]⟩, ?_⟩
          exact ⟨_, createSmsLog_lookup nowS
            { tenantId := ds.tenantId, phone := ds.phoneNumber,
              message := ds.message, status := some Status.pending,
              provider := ds.provider, errorMessage := none } ss
            hwfS.2, rfl⟩
        · simp at hi
        · simp at hi

/-- Vendor oracle that always succeeds, used in witnesses. -/
def emailVendorUp : EmailVendor := fun _ => Except.ok "abc123"

/-- SMS vendor oracle that always succeeds. -/
def smsVendorUp : SmsVendor := fun _ => Except.ok "SM123"

theorem claim2_witness :
    EmailStore.WF emptyEmailStore ∧ SmsStore.WF emptySmsStore ∧
    ((∀ i id req s1,
       (sendEmailT emailVendorUp 5 emailDataEx emptyEmailStore).2.2.get? i =
         some (EmailEvent.adapterCalled id req s1) →
       (∃ j, j < i ∧
          (sendEmailT emailVendorUp 5 emailDataEx emptyEmailStore).2.2.get? j =
            some (EmailEvent.logCreated id Status.pending)) ∧
       ∃ r, findEmailRow id s1.rows = some r ∧ r.status = Status.pending) ∧
     (∀ i id req s1,
       (sendSmsT smsVendorUp 5 smsDataEx emptySmsStore).2.2.get? i =
         some (SmsEvent.adapterCalled id req s1) →
       (∃ j, j < i ∧
          (sendSmsT smsVendorUp 5 smsDataEx emptySmsStore).2.2.get? j =
            some (SmsEvent.logCreated id Status.pending)) ∧
       ∃ r, findSmsRow id s1.rows = some r ∧ r.status = Status.pending)) :=
  ⟨⟨by simp [emptyEmailStore], by simp [emptyEmailStore]⟩,
   ⟨by simp [emptySmsStore], by simp [emptySmsStore]⟩,
   claim2_log_created_before_adapter_call emailVendorUp smsVendorUp 5 5
     emailDataEx smsDataEx emptyEmailStore emptySmsStore
     ⟨by simp [emptyEmailStore], by simp [emptyEmailStore]⟩
     ⟨by simp [emptySmsStore], by simp [emptySmsStore]⟩⟩

/-! Bulk sending: sendBulkEmails / sendBulkSms partition the input into
consecutive batches of batchSize (the loop for i in steps of batchSize with
slice(i, i + batchSize)) and collect per-item results; a thrown sendOne
error is caught per item and recorded as success false with the error
message.  The inter-batch delay has no effect on the returned values or on
which rows are written, so the value-level semantics below threads batches
sequentially; timing is modelled separately for the pacing claim. -/

/-- Partition a list into consecutive chunks of size n, as the bulk loop
does.  The service defaults batchSize to 10; the degenerate n = 0 (on which
the JavaScript loop would not terminate) returns the whole list as one
chunk and is excluded by the 0 < n hypothesis of every theorem below. -/
def chunkList {α : Type} (n : Nat) (l : List α) : List (List α) :=
  match l, n with
  | [], _ => []
  | x :: xs, 0 => [x :: xs]
  | x :: xs, m + 1 =>
      (x :: xs).take (m + 1) :: chunkList (m + 1) ((x :: xs).drop (m + 1))
termination_by l.length
decreasing_by
  simp only [List.drop_succ_cons, List.length_cons, List.length_drop]
  omega

theorem chunkList_flatten {α : Type} (n : Nat) (l : List α) (hn : 0 < n) :
    (chunkList n l).flatten = l := by
  obtain ⟨m, rfl⟩ : ∃ m, n = m + 1 := ⟨n - 1, by omega⟩
  suffices h : ∀ k (l2 : List α), l2.length ≤ k →
      (chunkList (m + 1) l2).flatten = l2 by
    exact h l.length l (le_refl _)
  intro k
  induction k with
  | zero =>
      intro l2 hl
      have h0 : l2 = [] := List.eq_nil_of_length_eq_zero (by omega)
      subst h0
      simp [chunkList]
  | succ k ih =>
      intro l2 hl
      match l2 with
      | [] => simp [chunkList]
      | x :: xs =>
          simp only [chunkList, List.flatten_cons]
          rw [ih ((x :: xs).drop (m + 1))
            (by simp only [List.length_drop, List.length_cons] at *; omega)]
          exact List.take_append_drop _ _

/-- One item of the sendBulkEmails input array. -/
structure BulkEmailItem where
  toAddr : String
  subject : String
  body : String
  html : Option String
deriving DecidableEq, Repr

/-- The emailData passed to sendEmail for one bulk item (spread of the item
with the shared tenantId and provider). -/
def emailDataOfItem (tenantId : Int) (provider : Option String)
    (it : BulkEmailItem) : EmailData :=
  { tenantId := tenantId, toAddr := it.toAddr, subject := it.subject,
    body := it.body, html := it.html, provider := provider }

/-- One element of the results array of sendBulkEmails: the item fields
spread together with either the sendEmail success payload or success false
plus the captured error message. -/
structure BulkEmailResult where
  toAddr : String
  subject : String
  body : String
  success : Bool
  emailLogId : Option Nat
  messageId : Option String
  error : Option String
deriving DecidableEq, Repr

/-- EmailService.processEmailBatch, instrumented: sequentially awaits
sendEmail for each item of the batch, catching per-item errors. -/
def processEmailBatchT (vendor : EmailVendor) (now : Int) (tenantId : Int)
    (provider : Option String) :
    List BulkEmailItem → EmailStore →
      List BulkEmailResult × EmailStore × List EmailEvent
  | [], s => ([], s, [])
  | it :: rest, s =>
      let r := sendEmailT vendor now (emailDataOfItem tenantId provider it) s
      let res : BulkEmailResult :=
        match r.1 with
        | Except.ok ok =>
            { toAddr := it.toAddr, subject := it.subject, body := it.body,
              success := true, emailLogId := some ok.emailLogId,
              messageId := some ok.messageId, error := none }
        | Except.error msg =>
            { toAddr := it.toAddr, subject := it.subject, body := it.body,
              success := false, emailLogId := none, messageId := none,
              error := some msg }
      let tailOut := processEmailBatchT vendor now tenantId provider rest r.2.1
      (res :: tailOut.1, tailOut.2.1, r.2.2 ++ tailOut.2.2)

/-- Sequential composition of the per-batch results of sendBulkEmails
(Promise.all(batchPromises) followed by flat). -/
def sendBulkEmailBatchesT (vendor : EmailVendor) (now : Int)
    (tenantId : Int) (provider : Option String) :
    List (List BulkEmailItem) → EmailStore →
      List BulkEmailResult × EmailStore × List EmailEvent
  | [], s => ([], s, [])
  | c :: cs, s =>
      let r := processEmailBatchT vendor now tenantId provider c s
      let rest := sendBulkEmailBatchesT vendor now tenantId provider cs r.2.1
      (r.1 ++ rest.1, rest.2.1, r.2.2 ++ rest.2.2)

/-- Summary object of the bulk send result. -/
structure BulkSummary where
  total : Nat
  successful : Nat
  failed : Nat
deriving DecidableEq, Repr

/-- Return value of EmailService.sendBulkEmails. -/
structure SendBulkEmailsOut where
  results : List BulkEmailResult
  summary : BulkSummary
deriving DecidableEq, Repr

/-- EmailService.sendBulkEmails, instrumented.  delayMs (the inter-batch
delay, default 1000) does not influence values or rows and is kept only for
signature fidelity. -/
def sendBulkEmailsT (vendor : EmailVendor) (now : Int)
    (emails : List BulkEmailItem) (tenantId : Int)
    (provider : Option String) (batchSize delayMs : Nat) (s : EmailStore) :
    SendBulkEmailsOut × EmailStore × List EmailEvent :=
  let r := sendBulkEmailBatchesT vendor now tenantId provider
    (chunkList batchSize emails) s
  let successful := r.1.countP (fun x => x.success)
  let failed := r.1.countP (fun x => !x.success)
  ({ results := r.1,
     summary := { total := emails.length, successful := successful,
                  failed := failed } }, r.2.1, r.2.2)

/-- Observable key of one bulk email result: the item fields, the success
flag and the captured error message. -/
def keyOfBulkEmailResult (r : BulkEmailResult) :
    (String × String × String) × Bool × Option String :=
  ((r.toAddr, r.subject, r.body), r.success, r.error)

/-- Outcome the adapter oracle dictates for one bulk item. -/
def expectedEmailOutcome (vendor : EmailVendor) (tenantId : Int)
    (provider : Option String) (it : BulkEmailItem) :
    (String × String × String) × Bool × Option String :=
  match vendor (reqOfEmailData (emailDataOfItem tenantId provider it)) with
  | Except.ok _ => ((it.toAddr, it.subject, it.body), true, none)
  | Except.error msg => ((it.toAddr, it.subject, it.body), false, some msg)

theorem processEmailBatchT_key (vendor : EmailVendor) (now : Int)
    (tenantId : Int) (provider : Option String)
    (items : List BulkEmailItem) (s : EmailStore) :
    (processEmailBatchT vendor now tenantId provider items s).1.map
        keyOfBulkEmailResult =
      items.map (expectedEmailOutcome vendor tenantId provider) := by
  induction items generalizing s with
  | nil => rfl
  | cons it rest ih =>
      simp only [processEmailBatchT, List.map_cons]
      rw [ih]
      cases hv : vendor (reqOfEmailData (emailDataOfItem tenantId provider it)) <;>
        simp [sendEmailT, createEmailLog, hv, keyOfBulkEmailResult,
          expectedEmailOutcome]

theorem sendBulkEmailBatchesT_key (vendor : EmailVendor) (now : Int)
    (tenantId : Int) (provider : Option String)
    (cs : List (List BulkEmailItem)) (s : EmailStore) :
    (sendBulkEmailBatchesT vendor now tenantId provider cs s).1.map
        keyOfBulkEmailResult =
      cs.flatten.map (expectedEmailOutcome vendor tenantId provider) := by
  induction cs generalizing s with
  | nil => rfl
  | cons c cs ih =>
      simp only [sendBulkEmailBatchesT, List.flatten_cons, List.map_append]
      rw [processEmailBatchT_key, ih]

theorem sendBulkEmailsT_key (vendor : EmailVendor) (now : Int)
    (emails : List BulkEmailItem) (tenantId : Int)
    (provider : Option String) (batchSize delayMs : Nat) (s : EmailStore)
    (hb : 0 < batchSize) :
    (sendBulkEmailsT vendor now emails tenantId provider batchSize delayMs
        s).1.results.map keyOfBulkEmailResult =
      emails.map (expectedEmailOutcome vendor tenantId provider) := by
  simp only [sendBulkEmailsT]
  rw [sendBulkEmailBatchesT_key, chunkList_flatten _ _ hb]

/-- The smsData passed to sendSms for one phone number of a bulk SMS send
(shared message, tenantId and provider). -/
def smsDataOfItem (tenantId : Int) (message : String)
    (provider : Option String) (phoneNumber : String) : SmsData :=
  { tenantId := tenantId, phoneNumber := phoneNumber, message := message,
    provider := provider }

/-- One element of the results array of sendBulkSms. -/
structure BulkSmsResult where
  phoneNumber : String
  success : Bool
  smsLogId : Option Nat
  messageId : Option String
  error : Option String
deriving DecidableEq, Repr

/-- SmsService.processSmsBatch, instrumented. -/
def processSmsBatchT (vendor : SmsVendor) (now : Int) (message : String)
    (tenantId : Int) (provider : Option String) :
    List String → SmsStore → List BulkSmsResult × SmsStore × List SmsEvent
  | [], s => ([], s, [])
  | phoneNumber :: rest, s =>
      let r := sendSmsT vendor now
        (smsDataOfItem tenantId message provider phoneNumber) s
      let res : BulkSmsResult :=
        match r.1 with
        | Except.ok ok =>
            { phoneNumber := phoneNumber, success := true,
              smsLogId := some ok.smsLogId, messageId := some ok.messageId,
              error := none }
        | Except.error msg =>
            { phoneNumber := phoneNumber, success := false,
              smsLogId := none, messageId := none, error := some msg }
      let tailOut := processSmsBatchT vendor now message tenantId provider
        rest r.2.1
      (res :: tailOut.1, tailOut.2.1, r.2.2 ++ tailOut.2.2)

/-- Sequential composition of the per-batch results of sendBulkSms. -/
def sendBulkSmsBatchesT (vendor : SmsVendor) (now : Int) (message : String)
    (tenantId : Int) (provider : Option String) :
    List (List String) → SmsStore →
      List BulkSmsResult × SmsStore × List SmsEvent
  | [], s => ([], s, [])
  | c :: cs, s =>
      let r := processSmsBatchT vendor now message tenantId provider c s
      let rest := sendBulkSmsBatchesT vendor now message tenantId provider
        cs r.2.1
      (r.1 ++ rest.1, rest.2.1, r.2.2 ++ rest.2.2)

/-- Return value of SmsService.sendBulkSms. -/
structure SendBulkSmsOut where
  results : List BulkSmsResult
  summary : BulkSummary
deriving DecidableEq, Repr

/-- SmsService.sendBulkSms, instrumented. -/
def sendBulkSmsT (vendor : SmsVendor) (now : Int)
    (phoneNumbers : List String) (message : String) (tenantId : Int)
    (provider : Option String) (batchSize delayMs : Nat) (s : SmsStore) :
    SendBulkSmsOut × SmsStore × List SmsEvent :=
  let r := sendBulkSmsBatchesT vendor now message tenantId provider
    (chunkList batchSize phoneNumbers) s
  let successful := r.1.countP (fun x => x.success)
  let failed := r.1.countP (fun x => !x.success)
  ({ results := r.1,
     summary := { total := phoneNumbers.length, successful := successful,
                  failed := failed } }, r.2.1, r.2.2)

/-- Observable key of one bulk SMS result. -/
def keyOfBulkSmsResult (r : BulkSmsResult) : String × Bool × Option String :=
  (r.phoneNumber, r.success, r.error)

/-- Outcome the adapter oracle dictates for one bulk SMS item. -/
def expectedSmsOutcome (vendor : SmsVendor) (tenantId : Int)
    (message : String) (provider : Option String) (phoneNumber : String) :
    String × Bool × Option String :=
  match vendor (reqOfSmsData
      (smsDataOfItem tenantId message provider phoneNumber)) with
  | Except.ok _ => (phoneNumber, true, none)
  | Except.error msg => (phoneNumber, false, some msg)

theorem processSmsBatchT_key (vendor : SmsVendor) (now : Int)
    (message : String) (tenantId : Int) (provider : Option String)
    (items : List String) (s : SmsStore) :
    (processSmsBatchT vendor now message tenantId provider items s).1.map
        keyOfBulkSmsResult =
      items.map (expectedSmsOutcome vendor tenantId message provider) := by
  induction items generalizing s with
  | nil => rfl
  | cons it rest ih =>
      simp only [processSmsBatchT, List.map_cons]
      rw [ih]
      cases hv : vendor (reqOfSmsData
          (smsDataOfItem tenantId message provider it)) <;>
        simp [sendSmsT, createSmsLog, hv, keyOfBulkSmsResult,
          expectedSmsOutcome]

theorem sendBulkSmsBatchesT_key (vendor : SmsVendor) (now : Int)
    (message : String) (tenantId : Int) (provider : Option String)
    (cs : List (List String)) (s : SmsStore) :
    (sendBulkSmsBatchesT vendor now message tenantId provider cs s).1.map
        keyOfBulkSmsResult =
      cs.flatten.map (expectedSmsOutcome vendor tenantId message provider) := by
  induction cs generalizing s with
  | nil => rfl
  | cons c cs ih =>
      simp only [sendBulkSmsBatchesT, List.flatten_cons, List.map_append]
      rw [processSmsBatchT_key, ih]

theorem sendBulkSmsT_key (vendor : SmsVendor) (now : Int)
    (phoneNumbers : List String) (message : String) (tenantId : Int)
    (provider : Option String) (batchSize delayMs : Nat) (s : SmsStore)
    (hb : 0 < batchSize) :
    (sendBulkSmsT vendor now phoneNumbers message tenantId provider
        batchSize delayMs s).1.results.map keyOfBulkSmsResult =
      phoneNumbers.map
        (expectedSmsOutcome vendor tenantId message provider) := by
  simp only [sendBulkSmsT]
  rw [sendBulkSmsBatchesT_key, chunkList_flatten _ _ hb]

/-! Generic counting and indexing lemmas used by the bulk claims. -/

theorem listCountP_map {α β : Type} (p : β → Bool) (f : α → β)
    (l : List α) : (l.map f).countP p = l.countP (fun a => p (f a)) := by
  induction l with
  | nil => rfl
  | cons a l ih => simp [List.countP_cons, ih]

theorem listCountP_add_not {α : Type} (p : α → Bool) (l : List α) :
    l.countP p + l.countP (fun a => !(p a)) = l.length := by
  induction l with
  | nil => rfl
  | cons a l ih =>
      cases h : p a <;> simp [List.countP_cons, h] <;> omega

theorem mapEq_getElem {α β γ : Type} {f : α → γ} {g : β → γ}
    {l1 : List α} {l2 : List β} (h : l1.map f = l2.map g) (i : Nat)
    (h1 : i < l1.length) (h2 : i < l2.length) :
    f (l1[i]) = g (l2[i]) := by
  have h3 := congrArg (fun l => l[i]?) h
  simp only [List.getElem?_map] at h3
  rw [List.getElem?_eq_getElem h1, List.getElem?_eq_getElem h2] at h3
  simpa using h3

/-! Claim C4: per-item vendor failures are isolated and the summary counts
add up. -/

/-- C4: sendBulkEmails / sendBulkSms are total functions of their input (no
batch-level exception arises from a per-item vendor failure): every input
item yields exactly one result carrying its success flag and captured error
message, summary.total equals the number of input items, successful counts
exactly the items whose sendOne succeeded, and successful + failed = total. -/
theorem claim4_bulk_failure_isolation_and_summary
    (evendor : EmailVendor) (svendor : SmsVendor) (nowE nowS : Int)
    (emails : List BulkEmailItem) (phoneNumbers : List String)
    (message : String) (tenantIdE tenantIdS : Int)
    (providerE providerS : Option String) (bsE bsS dE dS : Nat)
    (sE : EmailStore) (sS : SmsStore) (hbE : 0 < bsE) (hbS : 0 < bsS) :
    ((sendBulkEmailsT evendor nowE emails tenantIdE providerE bsE dE
        sE).1.summary.total = emails.length ∧
     (sendBulkEmailsT evendor nowE emails tenantIdE providerE bsE dE
        sE).1.results.length = emails.length ∧
     (sendBulkEmailsT evendor nowE emails tenantIdE providerE bsE dE
        sE).1.summary.successful +
       (sendBulkEmailsT evendor nowE emails tenantIdE providerE bsE dE
          sE).1.summary.failed =
       (sendBulkEmailsT evendor nowE emails tenantIdE providerE bsE dE
          sE).1.summary.total ∧
     (sendBulkEmailsT evendor nowE emails tenantIdE providerE bsE dE
        sE).1.summary.successful =
       emails.countP
         (fun it => (expectedEmailOutcome evendor tenantIdE providerE
            it).2.1) ∧
     ∀ i (hi : i < emails.length)
       (hr : i < (sendBulkEmailsT evendor nowE emails tenantIdE providerE
          bsE dE sE).1.results.length),
       ((sendBulkEmailsT evendor nowE emails tenantIdE providerE bsE dE
          sE).1.results[i].success =
           (expectedEmailOutcome evendor tenantIdE providerE
             emails[i]).2.1 ∧
        (sendBulkEmailsT evendor nowE emails tenantIdE providerE bsE dE
          sE).1.results[i].error =
           (expectedEmailOutcome evendor tenantIdE providerE
             emails[i]).2.2)) ∧
    ((sendBulkSmsT svendor nowS phoneNumbers message tenantIdS providerS
        bsS dS sS).1.summary.total = phoneNumbers.length ∧
     (sendBulkSmsT svendor nowS phoneNumbers message tenantIdS providerS
        bsS dS sS).1.results.length = phoneNumbers.length ∧
     (sendBulkSmsT svendor nowS phoneNumbers message tenantIdS providerS
        bsS dS sS).1.summary.successful +
       (sendBulkSmsT svendor nowS phoneNumbers message tenantIdS providerS
          bsS dS sS).1.summary.failed =
       (sendBulkSmsT svendor nowS phoneNumbers message tenantIdS providerS
          bsS dS sS).1.summary.total ∧
     (sendBulkSmsT svendor nowS phoneNumbers message tenantIdS providerS
        bsS dS sS).1.summary.successful =
       phoneNumbers.countP
         (fun ph => (expectedSmsOutcome svendor tenantIdS message providerS
            ph).2.1) ∧
     ∀ i (hi : i < phoneNumbers.length)
       (hr : i < (sendBulkSmsT svendor nowS phoneNumbers message tenantIdS
          providerS bsS dS sS).1.results.length),
       ((sendBulkSmsT svendor nowS phoneNumbers message tenantIdS providerS
          bsS dS sS).1.results[i].success =
           (expectedSmsOutcome svendor tenantIdS message providerS
             phoneNumbers[i]).2.1 ∧
        (sendBulkSmsT svendor nowS phoneNumbers message tenantIdS providerS
          bsS dS sS).1.results[i].error =
           (expectedSmsOutcome svendor tenantIdS message providerS
             phoneNumbers[i]).2.2)) := by
  have hkE := sendBulkEmailsT_key evendor nowE emails tenantIdE providerE
    bsE dE sE hbE
  have hkS := sendBulkSmsT_key svendor nowS phoneNumbers message tenantIdS
    providerS bsS dS sS hbS
  have hlenE : (sendBulkEmailsT evendor nowE emails tenantIdE providerE bsE
      dE sE).1.results.length = emails.length := by
    have := congrArg List.length hkE
    simpa using this
  have hlenS : (sendBulkSmsT svendor nowS phoneNumbers message tenantIdS
      providerS bsS dS sS).1.results.length = phoneNumbers.length := by
    have := congrArg List.length hkS
    simpa using this
  constructor
  · refine ⟨rfl, hlenE, ?_, ?_, ?_⟩
    · have := listCountP_add_not (fun x => x.success)
        (sendBulkEmailsT evendor nowE emails tenantIdE providerE bsE dE
          sE).1.results
      calc (sendBulkEmailsT evendor nowE emails tenantIdE providerE bsE dE
            sE).1.summary.successful +
          (sendBulkEmailsT evendor nowE emails tenantIdE providerE bsE dE
            sE).1.summary.failed
          = (sendBulkEmailsT evendor nowE emails tenantIdE providerE bsE dE
              sE).1.results.length := this
        _ = emails.length := hlenE
    · have h1 := congrArg (List.countP (fun k => k.2.1)) hkE
      rw [listCountP_map, listCountP_map] at h1
      exact h1
    · intro i hi hr
      have hg := mapEq_getElem hkE i hr hi
      exact ⟨congrArg (fun k => k.2.1) hg, congrArg (fun k => k.2.2) hg⟩
  · refine ⟨rfl, hlenS, ?_, ?_, ?_⟩
    · have := listCountP_add_not (fun x => x.success)
        (sendBulkSmsT svendor nowS phoneNumbers message tenantIdS providerS
          bsS dS sS).1.results
      calc (sendBulkSmsT svendor nowS phoneNumbers message tenantIdS
            providerS bsS dS sS).1.summary.successful +
          (sendBulkSmsT svendor nowS phoneNumbers message tenantIdS
            providerS bsS dS sS).1.summary.failed
          = (sendBulkSmsT svendor nowS phoneNumbers message tenantIdS
              providerS bsS dS sS).1.results.length := this
        _ = phoneNumbers.length := hlenS
    · have h1 := congrArg (List.countP (fun k => k.2.1)) hkS
      rw [listCountP_map, listCountP_map] at h1
      exact h1
    · intro i hi hr
      have hg := mapEq_getElem hkS i hr hi
      exact ⟨congrArg (fun k => k.2.1) hg, congrArg (fun k => k.2.2) hg⟩

/-! Claim C5: bulk results preserve input order. -/

/-- C5: the results array of sendBulkEmails / sendBulkSms is positionally
aligned with the input: mapping each result to its observable key (item
fields, success flag, error) yields exactly the input list mapped through
the adapter-dictated outcome, so the i-th result is the outcome of the i-th
input item. -/
theorem claim5_bulk_results_preserve_input_order
    (evendor : EmailVendor) (svendor : SmsVendor) (nowE nowS : Int)
    (emails : List BulkEmailItem) (phoneNumbers : List String)
    (message : String) (tenantIdE tenantIdS : Int)
    (providerE providerS : Option String) (bsE bsS dE dS : Nat)
    (sE : EmailStore) (sS : SmsStore) (hbE : 0 < bsE) (hbS : 0 < bsS) :
    ((sendBulkEmailsT evendor nowE emails tenantIdE providerE bsE dE
        sE).1.results.map keyOfBulkEmailResult =
       emails.map (expectedEmailOutcome evendor tenantIdE providerE) ∧
     ∀ i (hi : i < emails.length)
       (hr : i < (sendBulkEmailsT evendor nowE emails tenantIdE providerE
          bsE dE sE).1.results.length),
       keyOfBulkEmailResult
           ((sendBulkEmailsT evendor nowE emails tenantIdE providerE bsE dE
              sE).1.results[i]) =
         expectedEmailOutcome evendor tenantIdE providerE emails[i]) ∧
    ((sendBulkSmsT svendor nowS phoneNumbers message tenantIdS providerS
        bsS dS sS).1.results.map keyOfBulkSmsResult =
       phoneNumbers.map
         (expectedSmsOutcome svendor tenantIdS message providerS) ∧
     ∀ i (hi : i < phoneNumbers.length)
       (hr : i < (sendBulkSmsT svendor nowS phoneNumbers message tenantIdS
          providerS bsS dS sS).1.results.length),
       keyOfBulkSmsResult
           ((sendBulkSmsT svendor nowS phoneNumbers message tenantIdS
              providerS bsS dS sS).1.results[i]) =
         expectedSmsOutcome svendor tenantIdS message providerS
           phoneNumbers[i]) := by
  have hkE := sendBulkEmailsT_key evendor nowE emails tenantIdE providerE
    bsE dE sE hbE
  have hkS := sendBulkSmsT_key svendor nowS phoneNumbers message tenantIdS
    providerS bsS dS sS hbS
  exact ⟨⟨hkE, fun i hi hr => mapEq_getElem hkE i hr hi⟩,
         ⟨hkS, fun i hi hr => mapEq_getElem hkS i hr hi⟩⟩

/-- Email vendor oracle failing exactly for the destination bad1, used by
the bulk witnesses (the spec scenario good1, bad1, good2). -/
def emailVendorSelective : EmailVendor := fun req =>
  if req.toAddr = "bad1" then Except.error "mailbox unavailable"
  else Except.ok "mid-1"

/-- SMS vendor oracle failing exactly for one number. -/
def smsVendorSelective : SmsVendor := fun req =>
  if req.phoneNumber = "+15550000002" then Except.error "undeliverable"
  else Except.ok "SM-1"

/-- Bulk email witness input good1, bad1, good2. -/
def exEmails : List BulkEmailItem :=
  [{ toAddr := "good1", subject := "s", body := "b", html := none },
   { toAddr := "bad1", subject := "s", body := "b", html := none },
   { toAddr := "good2", subject := "s", body := "b", html := none }]

/-- Bulk SMS witness input. -/
def exPhones : List String :=
  ["+15550000001", "+15550000002", "+15550000003"]

theorem claim4_witness :
    (0 : Nat) < 2 ∧
    (sendBulkEmailsT emailVendorSelective 0 exEmails 7 (some "smtp") 2 1000
       emptyEmailStore).1.summary.total = exEmails.length ∧
    (sendBulkEmailsT emailVendorSelective 0 exEmails 7 (some "smtp") 2 1000
       emptyEmailStore).1.summary.successful =
      exEmails.countP
        (fun it => (expectedEmailOutcome emailVendorSelective 7
           (some "smtp") it).2.1) ∧
    (sendBulkSmsT smsVendorSelective 0 exPhones "msg" 7 (some "twilio") 2
       1000 emptySmsStore).1.summary.successful +
      (sendBulkSmsT smsVendorSelective 0 exPhones "msg" 7 (some "twilio") 2
         1000 emptySmsStore).1.summary.failed =
      (sendBulkSmsT smsVendorSelective 0 exPhones "msg" 7 (some "twilio") 2
         1000 emptySmsStore).1.summary.total := by
  have h := claim4_bulk_failure_isolation_and_summary emailVendorSelective
    smsVendorSelective 0 0 exEmails exPhones "msg" 7 7 (some "smtp")
    (some "twilio") 2 2 1000 1000 emptyEmailStore emptySmsStore
    (by decide) (by decide)
  exact ⟨by decide, h.1.1, h.1.2.2.2.1, h.2.2.2.1⟩

theorem claim5_witness :
    (0 : Nat) < 2 ∧
    (sendBulkEmailsT emailVendorSelective 0 exEmails 7 (some "smtp") 2 1000
       emptyEmailStore).1.results.map keyOfBulkEmailResult =
      exEmails.map
        (expectedEmailOutcome emailVendorSelective 7 (some "smtp")) ∧
    (sendBulkSmsT smsVendorSelective 0 exPhones "msg" 7 (some "twilio") 2
       1000 emptySmsStore).1.results.map keyOfBulkSmsResult =
      exPhones.map
        (expectedSmsOutcome smsVendorSelective 7 "msg" (some "twilio")) := by
  have h := claim5_bulk_results_preserve_input_order emailVendorSelective
    smsVendorSelective 0 0 exEmails exPhones "msg" 7 7 (some "smtp")
    (some "twilio") 2 2 1000 1000 emptyEmailStore emptySmsStore
    (by decide) (by decide)
  exact ⟨by decide, h.1.1, h.2.1⟩

/-! Claim C8: retention cleanup never touches pending rows. -/

/-- Millisecond length of one day (24 * 60 * 60 * 1000). -/
def dayMs : Int := 86400000

/-- Delete predicate of cleanupOldEmailLogs: createdAt strictly before the
cutoff and status in sent or failed. -/
def emailCleanupDel (cutoffDate : Int) (r : EmailLog) : Bool :=
  decide (r.createdAt < cutoffDate) &&
    (r.status == Status.sent || r.status == Status.failed)

/-- EmailRepository.cleanupOldEmailLogs: deleteMany of rows older than
daysOld days with status sent or failed; returns the deleted count. -/
def cleanupOldEmailLogs (now : Int) (daysOld : Nat) (s : EmailStore) :
    Nat × EmailStore :=
  let cutoffDate := now - (daysOld : Int) * dayMs
  let kept := s.rows.filter (fun r => !emailCleanupDel cutoffDate r)
  (s.rows.countP (emailCleanupDel cutoffDate), { s with rows := kept })

/-- Delete predicate of cleanupOldSmsLogs. -/
def smsCleanupDel (cutoffDate : Int) (r : SmsLog) : Bool :=
  decide (r.createdAt < cutoffDate) &&
    (r.status == Status.sent || r.status == Status.failed)

/-- SmsRepository.cleanupOldSmsLogs. -/
def cleanupOldSmsLogs (now : Int) (daysOld : Nat) (s : SmsStore) :
    Nat × SmsStore :=
  let cutoffDate := now - (daysOld : Int) * dayMs
  let kept := s.rows.filter (fun r => !smsCleanupDel cutoffDate r)
  (s.rows.countP (smsCleanupDel cutoffDate), { s with rows := kept })

/-- C8: cleanupOldEmailLogs / cleanupOldSmsLogs never delete a pending row
regardless of age; a row is deleted exactly when its createdAt is strictly
before the cutoff and its status is sent or failed; the surviving rows are
an in-order sublist of the original rows, each unchanged. -/
theorem claim8_cleanup_never_deletes_pending
    (nowE nowS : Int) (daysE daysS : Nat) (sE : EmailStore)
    (sS : SmsStore) :
    ((∀ r ∈ sE.rows, r.status = Status.pending →
        r ∈ (cleanupOldEmailLogs nowE daysE sE).2.rows) ∧
     (∀ r ∈ sE.rows,
        (r ∈ (cleanupOldEmailLogs nowE daysE sE).2.rows ↔
          ¬(r.createdAt < nowE - (daysE : Int) * dayMs ∧
            (r.status = Status.sent ∨ r.status = Status.failed)))) ∧
     List.Sublist (cleanupOldEmailLogs nowE daysE sE).2.rows sE.rows) ∧
    ((∀ r ∈ sS.rows, r.status = Status.pending →
        r ∈ (cleanupOldSmsLogs nowS daysS sS).2.rows) ∧
     (∀ r ∈ sS.rows,
        (r ∈ (cleanupOldSmsLogs nowS daysS sS).2.rows ↔
          ¬(r.createdAt < nowS - (daysS : Int) * dayMs ∧
            (r.status = Status.sent ∨ r.status = Status.failed)))) ∧
     List.Sublist (cleanupOldSmsLogs nowS daysS sS).2.rows sS.rows) := by
  refine ⟨⟨?_, ?_, ?_⟩, ?_, ?_, ?_⟩
  · intro r hr hp
    simp only [cleanupOldEmailLogs, List.mem_filter]
    exact ⟨hr, by simp [emailCleanupDel, hp]⟩
  · intro r hr
    simp only [cleanupOldEmailLogs, List.mem_filter]
    constructor
    · rintro ⟨-, hk⟩ hc
      revert hk
      simp [emailCleanupDel, hc.1]
      rcases hc.2 with h | h <;> simp [h]
    · intro hc
      refine ⟨hr, ?_⟩
      simp only [emailCleanupDel]
      by_cases hlt : r.createdAt < nowE - (daysE : Int) * dayMs
      · have : ¬(r.status = Status.sent ∨ r.status = Status.failed) :=
          fun hs => hc ⟨hlt, hs⟩
        push_neg at this
        simp [hlt, this.1, this.2]
      · simp [hlt]
  · exact List.filter_sublist _
  · intro r hr hp
    simp only [cleanupOldSmsLogs, List.mem_filter]
    exact ⟨hr, by simp [smsCleanupDel, hp]⟩
  · intro r hr
    simp only [cleanupOldSmsLogs, List.mem_filter]
    constructor
    · rintro ⟨-, hk⟩ hc
      revert hk
      simp [smsCleanupDel, hc.1]
      rcases hc.2 with h | h <;> simp [h]
    · intro hc
      refine ⟨hr, ?_⟩
      simp only [smsCleanupDel]
      by_cases hlt : r.createdAt < nowS - (daysS : Int) * dayMs
      · have : ¬(r.status = Status.sent ∨ r.status = Status.failed) :=
          fun hs => hc ⟨hlt, hs⟩
        push_neg at this
        simp [hlt, this.1, this.2]
      · simp [hlt]
  · exact List.filter_sublist _

/-- A 200-day-old pending email row (createdAt 0 with now = 200 days). -/
def oldPendingEmailRow : EmailLog :=
  { id := 1, tenantId := 1, toAddr := "a", subject := "s", body := "b",
    status := Status.pending, provider := none, errorMessage := none,
    createdAt := 0, updatedAt := 0 }

/-- Email store seeded with the old pending row. -/
def seededEmailStore : EmailStore := { rows := [oldPendingEmailRow], nextId := 2 }

/-- A 200-day-old pending SMS row. -/
def oldPendingSmsRow : SmsLog :=
  { id := 1, tenantId := 1, phone := "+15550000001", message := "m",
    status := Status.pending, provider := none, errorMessage := none,
    createdAt := 0, updatedAt := 0 }

/-- SMS store seeded with the old pending row. -/
def seededSmsStore : SmsStore := { rows := [oldPendingSmsRow], nextId := 2 }

theorem claim8_witness :
    oldPendingEmailRow ∈ seededEmailStore.rows ∧
    oldPendingEmailRow.status = Status.pending ∧
    oldPendingEmailRow ∈
      (cleanupOldEmailLogs 17280000000 90 seededEmailStore).2.rows ∧
    oldPendingSmsRow ∈ seededSmsStore.rows ∧
    oldPendingSmsRow.status = Status.pending ∧
    oldPendingSmsRow ∈
      (cleanupOldSmsLogs 17280000000 90 seededSmsStore).2.rows :=
  ⟨by simp [seededEmailStore], rfl,
   (claim8_cleanup_never_deletes_pending 17280000000 17280000000 90 90
      seededEmailStore seededSmsStore).1.1 oldPendingEmailRow
     (by simp [seededEmailStore]) rfl,
   by simp [seededSmsStore], rfl,
   (claim8_cleanup_never_deletes_pending 17280000000 17280000000 90 90
      seededEmailStore seededSmsStore).2.1 oldPendingSmsRow
     (by simp [seededSmsStore]) rfl⟩

/-! Log listing (getEmailLogs / getSmsLogs) and claim C10: a date-range
filter with only one bound present is silently dropped. -/

/-- Insertion step of a generic insertion sort with a Bool ordering. -/
def insertByLe {α : Type} (le : α → α → Bool) (a : α) :
    List α → List α
  | [] => [a]
  | b :: l => if le a b then a :: b :: l else b :: insertByLe le a l

/-- Generic insertion sort, standing in for the orderBy clause of the
repository queries. -/
def sortByLe {α : Type} (le : α → α → Bool) : List α → List α
  | [] => []
  | a :: l => insertByLe le a (sortByLe le l)

/-- Case-folded character list of a string, for the mode insensitive
contains filter. -/
def foldedChars (s : String) : List Char := s.toLower.data

/-- Bool test that the first character list occurs at the head of the
second. -/
def charsHeadOf : List Char → List Char → Bool
  | [], _ => true
  | _ :: _, [] => false
  | a :: as, b :: bs => a == b && charsHeadOf as bs

/-- Bool test that the first character list occurs contiguously somewhere
in the second. -/
def charsInfixOf (needle : List Char) : List Char → Bool
  | [] => charsHeadOf needle []
  | b :: bs => charsHeadOf needle (b :: bs) || charsInfixOf needle bs

/-- Prisma contains with mode insensitive: case-folded substring test. -/
def strContainsCI (hay needle : String) : Bool :=
  charsInfixOf (foldedChars needle) (foldedChars hay)

/-- The createdAt clause of the where object: present only when both
startDate and endDate are truthy (the source spreads
startDate && endDate && the gte/lte pair). -/
def dateRangeFilter (startDate endDate : Option Int) (createdAt : Int) :
    Bool :=
  match startDate, endDate with
  | some a, some b => decide (a ≤ createdAt) && decide (createdAt ≤ b)
  | _, _ => true

/-- Filters argument of EmailRepository.getEmailLogs (the to filter is the
recipient substring). -/
structure EmailLogFilters where
  tenantId : Option Int
  status : Option Status
  toContains : Option String
  startDate : Option Int
  endDate : Option Int
  provider : Option String

/-- The where object built by getEmailLogs, as a row predicate. -/
def matchesEmailWhere (f : EmailLogFilters) (r : EmailLog) : Bool :=
  (match f.tenantId with | some t => r.tenantId == t | none => true) &&
  (match f.status with | some st => r.status == st | none => true) &&
  (match f.toContains with
   | some sub => strContainsCI r.toAddr sub
   | none => true) &&
  (match f.provider with | some p => r.provider == some p | none => true) &&
  dateRangeFilter f.startDate f.endDate r.createdAt

/-- Return value of getEmailLogs: the page of rows plus the pagination
object (page, limit, total, pages = ceil(total / limit)). -/
structure EmailLogsPage where
  emailLogs : List EmailLog
  page : Nat
  limit : Nat
  total : Nat
  pages : Nat
deriving DecidableEq, Repr

/-- EmailRepository.getEmailLogs: filter by the where object, order newest
created first, paginate with skip = (page - 1) * limit and take = limit,
and count matching rows. -/
def getEmailLogs (f : EmailLogFilters) (page limit : Nat)
    (s : EmailStore) : EmailLogsPage :=
  let matching := s.rows.filter (matchesEmailWhere f)
  let sorted := sortByLe
    (fun r1 r2 => decide (r2.createdAt ≤ r1.createdAt)) matching
  { emailLogs := (sorted.drop ((page - 1) * limit)).take limit,
    page := page, limit := limit, total := matching.length,
    pages := (matching.length + limit - 1) / limit }

/-- Filters argument of SmsRepository.getSmsLogs. -/
structure SmsLogFilters where
  tenantId : Option Int
  status : Option Status
  phoneContains : Option String
  startDate : Option Int
  endDate : Option Int
  provider : Option String

/-- The where object built by getSmsLogs, as a row predicate. -/
def matchesSmsWhere (f : SmsLogFilters) (r : SmsLog) : Bool :=
  (match f.tenantId with | some t => r.tenantId == t | none => true) &&
  (match f.status with | some st => r.status == st | none => true) &&
  (match f.phoneContains with
   | some sub => strContainsCI r.phone sub
   | none => true) &&
  (match f.provider with | some p => r.provider == some p | none => true) &&
  dateRangeFilter f.startDate f.endDate r.createdAt

/-- Return value of getSmsLogs. -/
structure SmsLogsPage where
  smsLogs : List SmsLog
  page : Nat
  limit : Nat
  total : Nat
  pages : Nat
deriving DecidableEq, Repr

/-- SmsRepository.getSmsLogs. -/
def getSmsLogs (f : SmsLogFilters) (page limit : Nat) (s : SmsStore) :
    SmsLogsPage :=
  let matching := s.rows.filter (matchesSmsWhere f)
  let sorted := sortByLe
    (fun r1 r2 => decide (r2.createdAt ≤ r1.createdAt)) matching
  { smsLogs := (sorted.drop ((page - 1) * limit)).take limit,
    page := page, limit := limit, total := matching.length,
    pages := (matching.length + limit - 1) / limit }

/-- C10: when exactly one of startDate / endDate is provided the createdAt
filter is dropped entirely: getEmailLogs / getSmsLogs return exactly what
they return with no date range at all. -/
theorem claim10_single_date_bound_ignored (f : EmailLogFilters)
    (g : SmsLogFilters) (page limit : Nat) (s : EmailStore) (ss : SmsStore)
    (d1 d2 d3 d4 : Int) :
    (getEmailLogs { f with startDate := some d1, endDate := none } page
        limit s =
      getEmailLogs { f with startDate := none, endDate := none } page
        limit s) ∧
    (getEmailLogs { f with startDate := none, endDate := some d2 } page
        limit s =
      getEmailLogs { f with startDate := none, endDate := none } page
        limit s) ∧
    (getSmsLogs { g with startDate := some d3, endDate := none } page
        limit ss =
      getSmsLogs { g with startDate := none, endDate := none } page
        limit ss) ∧
    (getSmsLogs { g with startDate := none, endDate := some d4 } page
        limit ss =
      getSmsLogs { g with startDate := none, endDate := none } page
        limit ss) :=
  ⟨rfl, rfl, rfl, rfl⟩

/-! Retry sweep (EmailService.retryFailedEmails backed by
EmailRepository.getFailedEmailLogsForRetry) and claim C7. -/

/-- Ascending createdAt ordering used by the retry selection (orderBy
createdAt asc, oldest first). -/
def emailLeCreated (r1 r2 : EmailLog) : Bool :=
  decide (r1.createdAt ≤ r2.createdAt)

/-- EmailRepository.getFailedEmailLogsForRetry: rows with status failed and
createdAt within the last 24 hours (createdAt at least now minus one day in
milliseconds), ordered oldest first, capped at limit. -/
def getFailedEmailLogsForRetry (now : Int) (limit : Nat) (s : EmailStore) :
    List EmailLog :=
  (sortByLe emailLeCreated
    (s.rows.filter (fun r =>
      r.status == Status.failed && decide (now - dayMs ≤ r.createdAt)))).take
    limit

/-- Adapter request rebuilt from a failed log row by the retry path: the
row's recipient, subject, body and recorded provider (no html). -/
def retryEmailReq (l : EmailLog) : EmailReq :=
  { toAddr := l.toAddr, subject := l.subject, body := l.body, html := none,
    provider := l.provider }

/-- One element of the results array of retryFailedEmails. -/
structure RetryEmailResult where
  emailLogId : Nat
  success : Bool
  messageId : Option String
  error : Option String
deriving DecidableEq, Repr

/-- Loop body of retryFailedEmails for one selected log: reset the row to
pending, re-invoke the adapter with the row's recorded data, then update
the same row to sent or failed. -/
def retryEmailStep (vendor : EmailVendor) (now : Int) (l : EmailLog)
    (s : EmailStore) : RetryEmailResult × EmailStore × List EmailEvent :=
  let before1 := (findEmailRow l.id s.rows).map EmailLog.status
  let s1 := updateEmailLogStatus now l.id Status.pending none s
  let req := retryEmailReq l
  match vendor req with
  | Except.ok mid =>
      ({ emailLogId := l.id, success := true, messageId := some mid,
         error := none },
       updateEmailLogStatus now l.id Status.sent none s1,
       [EmailEvent.logUpdated l.id before1 Status.pending,
        EmailEvent.adapterCalled l.id req s1,
        EmailEvent.logUpdated l.id
          ((findEmailRow l.id s1.rows).map EmailLog.status) Status.sent])
  | Except.error msg =>
      ({ emailLogId := l.id, success := false, messageId := none,
         error := some msg },
       updateEmailLogStatus now l.id Status.failed (some msg) s1,
       [EmailEvent.logUpdated l.id before1 Status.pending,
        EmailEvent.adapterCalled l.id req s1,
        EmailEvent.logUpdated l.id
          ((findEmailRow l.id s1.rows).map EmailLog.status) Status.failed])

/-- Sequential loop of retryFailedEmails over the selected rows. -/
def retryEmailLoop (vendor : EmailVendor) (now : Int) :
    List EmailLog → EmailStore →
      List RetryEmailResult × EmailStore × List EmailEvent
  | [], s => ([], s, [])
  | l :: rest, s =>
      let r := retryEmailStep vendor now l s
      let tailOut := retryEmailLoop vendor now rest r.2.1
      (r.1 :: tailOut.1, tailOut.2.1, r.2.2 ++ tailOut.2.2)

/-- EmailService.retryFailedEmails, instrumented. -/
def retryFailedEmailsT (vendor : EmailVendor) (now : Int) (limit : Nat)
    (s : EmailStore) :
    List RetryEmailResult × EmailStore × List EmailEvent :=
  retryEmailLoop vendor now (getFailedEmailLogsForRetry now limit s) s

/-- Final status the retry of a row must reach, dictated by the adapter. -/
def retryOutcomeStatus (vendor : EmailVendor) (l : EmailLog) : Status :=
  match vendor (retryEmailReq l) with
  | Except.ok _ => Status.sent
  | Except.error _ => Status.failed

/-- Final errorMessage the retry of a row must leave. -/
def retryOutcomeErr (vendor : EmailVendor) (l : EmailLog) : Option String :=
  match vendor (retryEmailReq l) with
  | Except.ok _ => none
  | Except.error m => some m

/-- Result entry the retry of a row must produce. -/
def retryResultOf (vendor : EmailVendor) (l : EmailLog) :
    RetryEmailResult :=
  match vendor (retryEmailReq l) with
  | Except.ok mid =>
      { emailLogId := l.id, success := true, messageId := some mid,
        error := none }
  | Except.error m =>
      { emailLogId := l.id, success := false, messageId := none,
        error := some m }

/-- The adapter requests issued during a trace, in order. -/
def adapterReqsOf (events : List EmailEvent) : List EmailReq :=
  events.filterMap (fun e =>
    match e with
    | EmailEvent.adapterCalled _ req _ => some req
    | _ => none)

theorem updateEmailLogStatus_ids (now : Int) (id : Nat) (st : Status)
    (err : Option String) (s : EmailStore) :
    (updateEmailLogStatus now id st err s).rows.map EmailLog.id =
      s.rows.map EmailLog.id := by
  simp only [updateEmailLogStatus, List.map_map]
  exact List.map_congr_left (fun r hr => updEmailRow_id ..)

theorem updateEmailLogStatus_WF (now : Int) (id : Nat) (st : Status)
    (err : Option String) (s : EmailStore) (h : EmailStore.WF s) :
    EmailStore.WF (updateEmailLogStatus now id st err s) := by
  constructor
  · rw [show (updateEmailLogStatus now id st err s).rows.map EmailLog.id =
        s.rows.map EmailLog.id from updateEmailLogStatus_ids ..]
    exact h.1
  · intro r hr
    obtain ⟨r0, hr0, rfl⟩ := List.mem_map.mp hr
    rw [updEmailRow_id]
    exact h.2 r0 hr0

/-! Sorting lemmas for the retry selection. -/

theorem insertByLe_perm {α : Type} (le : α → α → Bool) (a : α)
    (l : List α) : (insertByLe le a l).Perm (a :: l) := by
  induction l with
  | nil => exact List.Perm.refl _
  | cons b l ih =>
      simp only [insertByLe]
      by_cases h : le a b = true
      · rw [if_pos h]
      · rw [if_neg h]
        exact (ih.cons b).trans (List.Perm.swap a b l)

theorem sortByLe_perm {α : Type} (le : α → α → Bool) (l : List α) :
    (sortByLe le l).Perm l := by
  induction l with
  | nil => exact List.Perm.refl _
  | cons a l ih => exact (insertByLe_perm le a _).trans (ih.cons a)

theorem mem_insertByLe {α : Type} (le : α → α → Bool) {x a : α}
    {l : List α} : x ∈ insertByLe le a l ↔ x = a ∨ x ∈ l := by
  have := (insertByLe_perm le a l).mem_iff (a := x)
  simpa using this

theorem insertByLe_pairwise {α : Type} (le : α → α → Bool)
    (htot : ∀ a b, le a b = false → le b a = true)
    (htrans : ∀ a b c, le a b = true → le b c = true → le a c = true)
    (a : α) (l : List α)
    (hl : l.Pairwise (fun x y => le x y = true)) :
    (insertByLe le a l).Pairwise (fun x y => le x y = true) := by
  induction l with
  | nil => simp [insertByLe]
  | cons b l ih =>
      simp only [insertByLe]
      by_cases h : le a b = true
      · rw [if_pos h]
        refine List.Pairwise.cons ?_ hl
        intro x hx
        rcases List.mem_cons.mp hx with rfl | hx2
        · exact h
        · exact htrans a b x h (List.rel_of_pairwise_cons hl hx2)
      · rw [if_neg h]
        have hfalse : le a b = false := by
          revert h
          cases le a b <;> simp
        have hb : le b a = true := htot a b hfalse
        refine List.Pairwise.cons ?_ (ih (List.Pairwise.of_cons hl))
        intro x hx
        rcases (mem_insertByLe le).mp hx with rfl | hx2
        · exact hb
        · exact List.rel_of_pairwise_cons hl hx2

theorem sortByLe_pairwise {α : Type} (le : α → α → Bool)
    (htot : ∀ a b, le a b = false → le b a = true)
    (htrans : ∀ a b c, le a b = true → le b c = true → le a c = true)
    (l : List α) :
    (sortByLe le l).Pairwise (fun x y => le x y = true) := by
  induction l with
  | nil => exact List.Pairwise.nil
  | cons a l ih => exact insertByLe_pairwise le htot htrans a _ ih

theorem findEmailRow_of_mem_nodup {rows : List EmailLog}
    (hnd : (rows.map EmailLog.id).Nodup) {l : EmailLog} (hl : l ∈ rows) :
    findEmailRow l.id rows = some l := by
  induction rows with
  | nil => cases hl
  | cons r rows ih =>
      rcases List.mem_cons.mp hl with rfl | hl2
      · unfold findEmailRow
        rw [List.find?_cons_of_pos _ (by simp)]
      · have hne : ¬ r.id = l.id := by
          intro hc
          have h1 : r.id ∉ rows.map EmailLog.id :=
            (List.nodup_cons.mp hnd).1
          exact h1 (hc ▸ List.mem_map_of_mem EmailLog.id hl2)
        unfold findEmailRow
        rw [List.find?_cons_of_neg _ (by simp [hne])]
        exact ih (List.nodup_cons.mp hnd).2 hl2

theorem retryEmailLoop_spec (vendor : EmailVendor) (now : Int)
    (logs : List EmailLog) :
    ∀ (s : EmailStore), EmailStore.WF s →
      (logs.map EmailLog.id).Nodup →
      (∀ l ∈ logs, ∃ r, findEmailRow l.id s.rows = some r ∧
         r.status = Status.failed) →
      (retryEmailLoop vendor now logs s).1 =
          logs.map (retryResultOf vendor) ∧
        adapterReqsOf (retryEmailLoop vendor now logs s).2.2 =
          logs.map retryEmailReq ∧
        (∀ l ∈ logs, ∃ r,
           findEmailRow l.id (retryEmailLoop vendor now logs s).2.1.rows =
             some r ∧
           r.status = retryOutcomeStatus vendor l ∧
           r.errorMessage = retryOutcomeErr vendor l) ∧
        (∀ j, (∀ l ∈ logs, l.id ≠ j) →
           findEmailRow j (retryEmailLoop vendor now logs s).2.1.rows =
             findEmailRow j s.rows) ∧
        (retryEmailLoop vendor now logs s).2.1.nextId = s.nextId ∧
        (retryEmailLoop vendor now logs s).2.1.rows.map EmailLog.id =
          s.rows.map EmailLog.id ∧
        (∀ e ∈ (retryEmailLoop vendor now logs s).2.2, ∀ id0 b a,
           e = EmailEvent.logUpdated id0 b a →
           (b = some Status.failed ∧ a = Status.pending) ∨
           (b = some Status.pending ∧
             (a = Status.sent ∨ a = Status.failed))) := by
  induction logs with
  | nil =>
      intro s hwf hnd hfail
      refine ⟨rfl, rfl, ?_, ?_, rfl, rfl, ?_⟩
      · intro l hl
        cases hl
      · intro j hj
        rfl
      · intro e he
        cases he
  | cons l rest ih =>
      intro s hwf hnd hfail
      obtain ⟨r0, hr0, hr0f⟩ := hfail l (List.mem_cons_self ..)
      have hndmap : (l.id :: rest.map EmailLog.id).Nodup := by simpa using hnd
      have hheadnotin : l.id ∉ rest.map EmailLog.id :=
        (List.nodup_cons.mp hndmap).1
      have hndrest : (rest.map EmailLog.id).Nodup :=
        (List.nodup_cons.mp hndmap).2
      have hne_rest : ∀ x ∈ rest, x.id ≠ l.id := fun x hx hc =>
        hheadnotin (hc ▸ List.mem_map_of_mem EmailLog.id hx)
      have hbefore1 : (findEmailRow l.id s.rows).map EmailLog.status =
          some Status.failed := by
        rw [hr0]
        simp [hr0f]
      cases hv : vendor (retryEmailReq l) with
      | ok mid =>
        simp only [retryEmailLoop, retryEmailStep, hv]
        have hfail2 : ∀ x ∈ rest, ∃ r,
            findEmailRow x.id
              (updateEmailLogStatus now l.id Status.sent none
                (updateEmailLogStatus now l.id Status.pending none
                  s)).rows = some r ∧ r.status = Status.failed := by
          intro x hx
          obtain ⟨r, hr, hrf⟩ := hfail x (List.mem_cons_of_mem _ hx)
          refine ⟨r, ?_, hrf⟩
          simp only [updateEmailLogStatus]
          rw [findEmailRow_map_upd_ne _ _ _ _ _ _ (hne_rest x hx),
            findEmailRow_map_upd_ne _ _ _ _ _ _ (hne_rest x hx)]
          exact hr
        have hwf2 : EmailStore.WF
            (updateEmailLogStatus now l.id Status.sent none
              (updateEmailLogStatus now l.id Status.pending none s)) :=
          updateEmailLogStatus_WF _ _ _ _ _
            (updateEmailLogStatus_WF _ _ _ _ _ hwf)
        obtain ⟨iha, ihb, ihc, ihd, ihe, ihf, ihg⟩ :=
          ih _ hwf2 hndrest hfail2
        have hfind_s1 : findEmailRow l.id
            (updateEmailLogStatus now l.id Status.pending none s).rows =
            some { r0 with status := Status.pending, errorMessage := none,
                           updatedAt := now } := by
          simp only [updateEmailLogStatus]
          rw [findEmailRow_map_upd_eq, hr0]
          rfl
        have hfind_s2 : findEmailRow l.id
            (updateEmailLogStatus now l.id Status.sent none
              (updateEmailLogStatus now l.id Status.pending none
                s)).rows =
            some { r0 with status := Status.sent, errorMessage := none,
                           updatedAt := now } := by
          simp only [updateEmailLogStatus]
          rw [findEmailRow_map_upd_eq]
          simp only [updateEmailLogStatus] at hfind_s1
          rw [hfind_s1]
          rfl
        have hbefore2 : (findEmailRow l.id
            (updateEmailLogStatus now l.id Status.pending none
              s).rows).map EmailLog.status = some Status.pending := by
          rw [hfind_s1]
          rfl
        refine ⟨?_, ?_, ?_, ?_, ?_, ?_, ?_⟩
        · simp only [List.map_cons, iha, retryResultOf, hv]
        · simp only [adapterReqsOf, List.filterMap_append] at *
          simp only [List.map_cons, ihb]
          rfl
        · intro x hx
          rcases List.mem_cons.mp hx with rfl | hx2
          · refine ⟨{ r0 with
                        status := Status.sent,
                        errorMessage := none,
                        updatedAt := now }, ?_, ?_, ?_⟩
            · rw [ihd x.id (fun x2 hx2 => hne_rest x2 hx2)]
              exact hfind_s2
            · simp [retryOutcomeStatus, hv]
            · simp [retryOutcomeErr, hv]
          · exact ihc x hx2
        · intro j hj
          rw [ihd j (fun x hx => hj x (List.mem_cons_of_mem _ hx))]
          simp only [updateEmailLogStatus]
          rw [findEmailRow_map_upd_ne _ _ _ _ _ _
              (fun hc => hj l (List.mem_cons_self ..) hc.symm),
            findEmailRow_map_upd_ne _ _ _ _ _ _
              (fun hc => hj l (List.mem_cons_self ..) hc.symm)]
        · rw [ihe]
          rfl
        · rw [ihf, updateEmailLogStatus_ids, updateEmailLogStatus_ids]
        · intro e he id0 b a heq
          rcases List.mem_append.mp he with he1 | he2
          · simp only [List.mem_cons] at he1
            rcases he1 with rfl | rfl | rfl | h0
            · cases heq
              exact Or.inl ⟨hbefore1, rfl⟩
            · cases heq
            · cases heq
              exact Or.inr ⟨hbefore2, Or.inl rfl⟩
            · cases h0
          · exact ihg e he2 id0 b a heq
      | error msg =>
        simp only [retryEmailLoop, retryEmailStep, hv]
        have hfail2 : ∀ x ∈ rest, ∃ r,
            findEmailRow x.id
              (updateEmailLogStatus now l.id Status.failed (some msg)
                (updateEmailLogStatus now l.id Status.pending none
                  s)).rows = some r ∧ r.status = Status.failed := by
          intro x hx
          obtain ⟨r, hr, hrf⟩ := hfail x (List.mem_cons_of_mem _ hx)
          refine ⟨r, ?_, hrf⟩
          simp only [updateEmailLogStatus]
          rw [findEmailRow_map_upd_ne _ _ _ _ _ _ (hne_rest x hx),
            findEmailRow_map_upd_ne _ _ _ _ _ _ (hne_rest x hx)]
          exact hr
        have hwf2 : EmailStore.WF
            (updateEmailLogStatus now l.id Status.failed (some msg)
              (updateEmailLogStatus now l.id Status.pending none s)) :=
          updateEmailLogStatus_WF _ _ _ _ _
            (updateEmailLogStatus_WF _ _ _ _ _ hwf)
        obtain ⟨iha, ihb, ihc, ihd, ihe, ihf, ihg⟩ :=
          ih _ hwf2 hndrest hfail2
        have hfind_s1 : findEmailRow l.id
            (updateEmailLogStatus now l.id Status.pending none s).rows =
            some { r0 with status := Status.pending, errorMessage := none,
                           updatedAt := now } := by
          simp only [updateEmailLogStatus]
          rw [findEmailRow_map_upd_eq, hr0]
          rfl
        have hfind_s2 : findEmailRow l.id
            (updateEmailLogStatus now l.id Status.failed (some msg)
              (updateEmailLogStatus now l.id Status.pending none
                s)).rows =
            some { r0 with status := Status.failed,
                           errorMessage := some msg,
                           updatedAt := now } := by
          simp only [updateEmailLogStatus]
          rw [findEmailRow_map_upd_eq]
          simp only [updateEmailLogStatus] at hfind_s1
          rw [hfind_s1]
          rfl
        have hbefore2 : (findEmailRow l.id
            (updateEmailLogStatus now l.id Status.pending none
              s).rows).map EmailLog.status = some Status.pending := by
          rw [hfind_s1]
          rfl
        refine ⟨?_, ?_, ?_, ?_, ?_, ?_, ?_⟩
        · simp only [List.map_cons, iha, retryResultOf, hv]
        · simp only [adapterReqsOf, List.filterMap_append] at *
          simp only [List.map_cons, ihb]
          rfl
        · intro x hx
          rcases List.mem_cons.mp hx with rfl | hx2
          · refine ⟨{ r0 with
                        status := Status.failed,
                        errorMessage := some msg,
                        updatedAt := now }, ?_, ?_, ?_⟩
            · rw [ihd x.id (fun x2 hx2 => hne_rest x2 hx2)]
              exact hfind_s2
            · simp [retryOutcomeStatus, hv]
            · simp [retryOutcomeErr, hv]
          · exact ihc x hx2
        · intro j hj
          rw [ihd j (fun x hx => hj x (List.mem_cons_of_mem _ hx))]
          simp only [updateEmailLogStatus]
          rw [findEmailRow_map_upd_ne _ _ _ _ _ _
              (fun hc => hj l (List.mem_cons_self ..) hc.symm),
            findEmailRow_map_upd_ne _ _ _ _ _ _
              (fun hc => hj l (List.mem_cons_self ..) hc.symm)]
        · rw [ihe]
          rfl
        · rw [ihf, updateEmailLogStatus_ids, updateEmailLogStatus_ids]
        · intro e he id0 b a heq
          rcases List.mem_append.mp he with he1 | he2
          · simp only [List.mem_cons] at he1
            rcases he1 with rfl | rfl | rfl | h0
            · cases heq
              exact Or.inl ⟨hbefore1, rfl⟩
            · cases heq
            · cases heq
              exact Or.inr ⟨hbefore2, Or.inr rfl⟩
            · cases h0
          · exact ihg e he2 id0 b a heq

/-- Shorthand for the retry selection predicate: failed and created within
the last 24 hours. -/
def retryQualifies (now : Int) (r : EmailLog) : Bool :=
  r.status == Status.failed && decide (now - dayMs ≤ r.createdAt)

theorem getFailedEmailLogsForRetry_eq (now : Int) (limit : Nat)
    (s : EmailStore) :
    getFailedEmailLogsForRetry now limit s =
      (sortByLe emailLeCreated (s.rows.filter (retryQualifies now))).take
        limit := rfl

theorem getFailedEmailLogsForRetry_sound (now : Int) (limit : Nat)
    (s : EmailStore) :
    ∀ l ∈ getFailedEmailLogsForRetry now limit s,
      l ∈ s.rows ∧ l.status = Status.failed ∧
        now - dayMs ≤ l.createdAt := by
  intro l hl
  rw [getFailedEmailLogsForRetry_eq] at hl
  have h1 : l ∈ sortByLe emailLeCreated
      (s.rows.filter (retryQualifies now)) :=
    (List.take_sublist _ _).subset hl
  have h2 : l ∈ s.rows.filter (retryQualifies now) :=
    (sortByLe_perm _ _).mem_iff.mp h1
  have h3 := List.mem_filter.mp h2
  refine ⟨h3.1, ?_, ?_⟩
  · have := h3.2
    simp only [retryQualifies, Bool.and_eq_true, beq_iff_eq] at this
    exact this.1
  · have := h3.2
    simp only [retryQualifies, Bool.and_eq_true, decide_eq_true_eq] at this
    exact this.2

theorem getFailedEmailLogsForRetry_len (now : Int) (limit : Nat)
    (s : EmailStore) :
    (getFailedEmailLogsForRetry now limit s).length ≤ limit := by
  rw [getFailedEmailLogsForRetry_eq, List.length_take]
  exact min_le_left _ _

theorem emailLeCreated_total (a b : EmailLog) :
    emailLeCreated a b = false → emailLeCreated b a = true := by
  simp only [emailLeCreated, decide_eq_false_iff_not, decide_eq_true_eq]
  omega

theorem emailLeCreated_trans (a b c : EmailLog) :
    emailLeCreated a b = true → emailLeCreated b c = true →
      emailLeCreated a c = true := by
  simp only [emailLeCreated, decide_eq_true_eq]
  omega

theorem getFailedEmailLogsForRetry_sorted (now : Int) (limit : Nat)
    (s : EmailStore) :
    (getFailedEmailLogsForRetry now limit s).Pairwise
      (fun a b => a.createdAt ≤ b.createdAt) := by
  rw [getFailedEmailLogsForRetry_eq]
  have h := sortByLe_pairwise emailLeCreated emailLeCreated_total
    emailLeCreated_trans (s.rows.filter (retryQualifies now))
  have h2 := h.sublist (List.take_sublist limit _)
  exact h2.imp (fun hab => by
    simpa [emailLeCreated, decide_eq_true_eq] using hab)

theorem getFailedEmailLogsForRetry_complete (now : Int) (limit : Nat)
    (s : EmailStore)
    (hlen : (s.rows.filter (retryQualifies now)).length ≤ limit) :
    ∀ r ∈ s.rows, r.status = Status.failed → now - dayMs ≤ r.createdAt →
      r ∈ getFailedEmailLogsForRetry now limit s := by
  intro r hr hrf hrc
  rw [getFailedEmailLogsForRetry_eq]
  have hmem : r ∈ s.rows.filter (retryQualifies now) :=
    List.mem_filter.mpr ⟨hr, by simp [retryQualifies, hrf, hrc]⟩
  have hmem2 : r ∈ sortByLe emailLeCreated
      (s.rows.filter (retryQualifies now)) :=
    (sortByLe_perm _ _).mem_iff.mpr hmem
  have hlen2 : (sortByLe emailLeCreated
      (s.rows.filter (retryQualifies now))).length ≤ limit := by
    rw [(sortByLe_perm _ _).length_eq]
    exact hlen
  rw [List.take_of_length_le hlen2]
  exact hmem2

theorem getFailedEmailLogsForRetry_nodup (now : Int) (limit : Nat)
    (s : EmailStore) (h : (s.rows.map EmailLog.id).Nodup) :
    ((getFailedEmailLogsForRetry now limit s).map EmailLog.id).Nodup := by
  have h1 : ((s.rows.filter (retryQualifies now)).map EmailLog.id).Nodup :=
    h.sublist ((List.filter_sublist _).map EmailLog.id)
  have h2 : ((sortByLe emailLeCreated
      (s.rows.filter (retryQualifies now))).map EmailLog.id).Nodup :=
    (((sortByLe_perm emailLeCreated _).map EmailLog.id).nodup_iff).mpr h1
  rw [getFailedEmailLogsForRetry_eq]
  exact h2.sublist ((List.take_sublist _ _).map EmailLog.id)

/-- C7: retryFailedEmails selects at most limit failed rows created within
the last 24 hours (oldest first; a row older than 24 hours is never
selected, and every qualifying row is selected whenever the qualifying rows
fit in the limit), and for each selected row it re-invokes the adapter with
the row's recorded recipient, subject, body and provider, updates that same
existing row to sent or failed (through pending), and never creates a log
row: the row ids and the next id of the store are unchanged. -/
theorem claim7_retry_selection_and_replay (vendor : EmailVendor)
    (now : Int) (limit : Nat) (s : EmailStore) (hwf : EmailStore.WF s) :
    (getFailedEmailLogsForRetry now limit s).length ≤ limit ∧
    (∀ l ∈ getFailedEmailLogsForRetry now limit s,
       l ∈ s.rows ∧ l.status = Status.failed ∧
         now - dayMs ≤ l.createdAt) ∧
    (getFailedEmailLogsForRetry now limit s).Pairwise
      (fun a b => a.createdAt ≤ b.createdAt) ∧
    ((s.rows.filter (retryQualifies now)).length ≤ limit →
      ∀ r ∈ s.rows, r.status = Status.failed →
        now - dayMs ≤ r.createdAt →
        r ∈ getFailedEmailLogsForRetry now limit s) ∧
    (retryFailedEmailsT vendor now limit s).1 =
      (getFailedEmailLogsForRetry now limit s).map
        (retryResultOf vendor) ∧
    adapterReqsOf (retryFailedEmailsT vendor now limit s).2.2 =
      (getFailedEmailLogsForRetry now limit s).map retryEmailReq ∧
    (∀ l ∈ getFailedEmailLogsForRetry now limit s, ∃ r,
       findEmailRow l.id (retryFailedEmailsT vendor now limit s).2.1.rows =
         some r ∧
       r.status = retryOutcomeStatus vendor l ∧
       r.errorMessage = retryOutcomeErr vendor l) ∧
    (retryFailedEmailsT vendor now limit s).2.1.nextId = s.nextId ∧
    (retryFailedEmailsT vendor now limit s).2.1.rows.map EmailLog.id =
      s.rows.map EmailLog.id ∧
    (∀ e ∈ (retryFailedEmailsT vendor now limit s).2.2, ∀ id0 b a,
       e = EmailEvent.logUpdated id0 b a →
       (b = some Status.failed ∧ a = Status.pending) ∨
       (b = some Status.pending ∧
         (a = Status.sent ∨ a = Status.failed))) := by
  have hsound := getFailedEmailLogsForRetry_sound now limit s
  have hfail : ∀ l ∈ getFailedEmailLogsForRetry now limit s, ∃ r,
      findEmailRow l.id s.rows = some r ∧ r.status = Status.failed := by
    intro l hl
    obtain ⟨hmem, hst, -⟩ := hsound l hl
    exact ⟨l, findEmailRow_of_mem_nodup hwf.1 hmem, hst⟩
  obtain ⟨ha, hb, hc, hd, he, hf, hg⟩ := retryEmailLoop_spec vendor now
    (getFailedEmailLogsForRetry now limit s) s hwf
    (getFailedEmailLogsForRetry_nodup now limit s hwf.1) hfail
  exact ⟨getFailedEmailLogsForRetry_len now limit s, hsound,
    getFailedEmailLogsForRetry_sorted now limit s,
    getFailedEmailLogsForRetry_complete now limit s, ha, hb, hc, he, hf,
    hg⟩

/-- Failed email row created 25 hours before the witness clock. -/
def rowFailed25h : EmailLog :=
  { id := 1, tenantId := 1, toAddr := "old@example.com", subject := "s1",
    body := "b1", status := Status.failed,
    errorMessage := some "previous failure", provider := some "smtp",
    createdAt := 10000000, updatedAt := 10000000 }

/-- Failed email row created 23 hours before the witness clock. -/
def rowFailed23h : EmailLog :=
  { id := 2, tenantId := 1, toAddr := "new@example.com", subject := "s2",
    body := "b2", status := Status.failed,
    errorMessage := some "previous failure", provider := some "smtp",
    createdAt := 17200000, updatedAt := 17200000 }

/-- Store seeded for the retry witness; the clock is 100000000, so the
24-hour window starts at 13600000. -/
def retrySeedStore : EmailStore :=
  { rows := [rowFailed25h, rowFailed23h], nextId := 3 }

theorem claim7_witness :
    EmailStore.WF retrySeedStore ∧
    rowFailed23h ∈ getFailedEmailLogsForRetry 100000000 50 retrySeedStore ∧
    rowFailed25h ∉ getFailedEmailLogsForRetry 100000000 50 retrySeedStore ∧
    (retryFailedEmailsT emailVendorUp 100000000 50 retrySeedStore).1 =
      (getFailedEmailLogsForRetry 100000000 50 retrySeedStore).map
        (retryResultOf emailVendorUp) ∧
    (retryFailedEmailsT emailVendorUp 100000000 50
        retrySeedStore).2.1.nextId = retrySeedStore.nextId := by
  have hwf : EmailStore.WF retrySeedStore := by
    constructor
    · simp [retrySeedStore, rowFailed25h, rowFailed23h]
    · intro r hr
      rcases List.mem_cons.mp hr with rfl | hr2
      · decide
      · rcases List.mem_cons.mp hr2 with rfl | hr3
        · decide
        · cases hr3
  have h := claim7_retry_selection_and_replay emailVendorUp 100000000 50
    retrySeedStore hwf
  refine ⟨hwf, ?_, ?_, h.2.2.2.2.1, h.2.2.2.2.2.2.2.1⟩
  · refine h.2.2.2.1 (by decide) rowFailed23h ?_ rfl (by decide)
    simp [retrySeedStore]
  · intro hmem
    have h2 := (h.2.1 rowFailed25h hmem).2.2
    revert h2
    decide

/-! Claim C3: status transitions across arbitrary sequences of service
operations. -/

/-- A service-level operation on the email delivery log store. -/
inductive EmailOp
  | sendOne (d : EmailData)
  | sendBulk (emails : List BulkEmailItem) (tenantId : Int)
      (provider : Option String) (batchSize delayMs : Nat)
  | retryFailed (limit : Nat)

/-- Store effect and event trace of one service operation. -/
def applyEmailOp (vendor : EmailVendor) (now : Int) (op : EmailOp)
    (s : EmailStore) : EmailStore × List EmailEvent :=
  match op with
  | EmailOp.sendOne d =>
      ((sendEmailT vendor now d s).2.1, (sendEmailT vendor now d s).2.2)
  | EmailOp.sendBulk emails tenantId provider batchSize delayMs =>
      ((sendBulkEmailsT vendor now emails tenantId provider batchSize
          delayMs s).2.1,
       (sendBulkEmailsT vendor now emails tenantId provider batchSize
          delayMs s).2.2)
  | EmailOp.retryFailed limit =>
      ((retryFailedEmailsT vendor now limit s).2.1,
       (retryFailedEmailsT vendor now limit s).2.2)

/-- Sequential execution of service operations, each with its own clock
value, concatenating the event traces. -/
def applyEmailOps (vendor : EmailVendor) :
    List (Int × EmailOp) → EmailStore → EmailStore × List EmailEvent
  | [], s => (s, [])
  | p :: rest, s =>
      let r := applyEmailOp vendor p.1 p.2 s
      let tailOut := applyEmailOps vendor rest r.1
      (tailOut.1, r.2 ++ tailOut.2)

/-- The status transitions the spec permits on an existing row:
pending to sent, pending to failed, failed to pending. -/
def allowedTransition (b : Option Status) (a : Status) : Prop :=
  (b = some Status.pending ∧
    (a = Status.sent ∨ a = Status.failed)) ∨
  (b = some Status.failed ∧ a = Status.pending)

theorem createEmailLog_WF (now : Int) (d : CreateEmailData)
    (s : EmailStore) (hwf : EmailStore.WF s) :
    EmailStore.WF (createEmailLog now d s).2 := by
  constructor
  · simp only [createEmailLog, List.map_append, List.map_cons,
      List.map_nil]
    rw [List.nodup_append]
    refine ⟨hwf.1, List.nodup_singleton _, ?_⟩
    intro x hx hy
    obtain ⟨r0, hr0, rfl⟩ := List.mem_map.mp hx
    simp only [List.mem_singleton] at hy
    exact absurd hy (Nat.ne_of_lt (hwf.2 r0 hr0))
  · intro r hr
    simp only [createEmailLog] at hr
    rcases List.mem_append.mp hr with h1 | h2
    · exact Nat.lt_succ_of_lt (hwf.2 r h1)
    · simp only [List.mem_singleton] at h2
      subst h2
      exact Nat.lt_succ_self _

theorem sendEmailT_WF (vendor : EmailVendor) (now : Int) (d : EmailData)
    (s : EmailStore) (hwf : EmailStore.WF s) :
    EmailStore.WF (sendEmailT vendor now d s).2.1 := by
  cases hv : vendor (reqOfEmailData d) <;>
    simp only [sendEmailT, hv] <;>
    exact updateEmailLogStatus_WF _ _ _ _ _
      (createEmailLog_WF now _ s hwf)

theorem sendEmailT_untouched (vendor : EmailVendor) (now : Int)
    (d : EmailData) (s : EmailStore) (hwf : EmailStore.WF s) {j : Nat}
    {r : EmailLog} (hj : findEmailRow j s.rows = some r) :
    findEmailRow j (sendEmailT vendor now d s).2.1.rows = some r := by
  have hjlt : j < s.nextId := by
    obtain ⟨hmem, hid⟩ := findEmailRow_mem hj
    exact hid ▸ hwf.2 r hmem
  have hne : j ≠ s.nextId := Nat.ne_of_lt hjlt
  cases hv : vendor (reqOfEmailData d) <;>
    simp only [sendEmailT, hv, updateEmailLogStatus, createEmailLog] <;>
    rw [findEmailRow_map_upd_ne _ _ _ _ _ _ hne] <;>
    exact findEmailRow_append_left _ hj

theorem sendEmailT_updates (vendor : EmailVendor) (now : Int)
    (d : EmailData) (s : EmailStore) (hwf : EmailStore.WF s) :
    ∀ e ∈ (sendEmailT vendor now d s).2.2, ∀ id0 b a,
      e = EmailEvent.logUpdated id0 b a → allowedTransition b a := by
  have hcreate := createEmailLog_lookup now
    { tenantId := d.tenantId, toAddr := d.toAddr, subject := d.subject,
      body := d.body, status := some Status.pending, provider := d.provider,
      errorMessage := none } s hwf.2
  intro e he id0 b a heq
  cases hv : vendor (reqOfEmailData d) with
  | ok mid =>
      simp only [sendEmailT, hv, List.mem_cons] at he
      rcases he with rfl | rfl | rfl | h0
      · cases heq
      · cases heq
      · cases heq
        refine Or.inl ⟨?_, by simp⟩
        simp only [createEmailLog] at hcreate ⊢
        rw [hcreate]
        rfl
      · cases h0
  | error msg =>
      simp only [sendEmailT, hv, List.mem_cons] at he
      rcases he with rfl | rfl | rfl | h0
      · cases heq
      · cases heq
      · cases heq
        refine Or.inl ⟨?_, by simp⟩
        simp only [createEmailLog] at hcreate ⊢
        rw [hcreate]
        rfl
      · cases h0

theorem processEmailBatchT_ops (vendor : EmailVendor) (now : Int)
    (tenantId : Int) (provider : Option String)
    (items : List BulkEmailItem) :
    ∀ s : EmailStore, EmailStore.WF s →
      EmailStore.WF (processEmailBatchT vendor now tenantId provider items
          s).2.1 ∧
      (∀ {j : Nat} {r : EmailLog}, findEmailRow j s.rows = some r →
        findEmailRow j (processEmailBatchT vendor now tenantId provider
            items s).2.1.rows = some r) ∧
      (∀ e ∈ (processEmailBatchT vendor now tenantId provider items
          s).2.2, ∀ id0 b a,
        e = EmailEvent.logUpdated id0 b a → allowedTransition b a) := by
  induction items with
  | nil =>
      intro s hwf
      exact ⟨hwf, fun hj => hj, fun e he => by cases he⟩
  | cons it rest ih =>
      intro s hwf
      have hstep := sendEmailT_WF vendor now
        (emailDataOfItem tenantId provider it) s hwf
      obtain ⟨ihw, ihu, ihe⟩ := ih _ hstep
      refine ⟨?_, ?_, ?_⟩
      · simpa only [processEmailBatchT] using ihw
      · intro j r hj
        simp only [processEmailBatchT]
        exact ihu (sendEmailT_untouched vendor now _ s hwf hj)
      · intro e he id0 b a heq
        simp only [processEmailBatchT, List.mem_append] at he
        rcases he with h1 | h2
        · exact sendEmailT_updates vendor now _ s hwf e h1 id0 b a heq
        · exact ihe e h2 id0 b a heq

theorem sendBulkEmailBatchesT_ops (vendor : EmailVendor) (now : Int)
    (tenantId : Int) (provider : Option String)
    (cs : List (List BulkEmailItem)) :
    ∀ s : EmailStore, EmailStore.WF s →
      EmailStore.WF (sendBulkEmailBatchesT vendor now tenantId provider cs
          s).2.1 ∧
      (∀ {j : Nat} {r : EmailLog}, findEmailRow j s.rows = some r →
        findEmailRow j (sendBulkEmailBatchesT vendor now tenantId provider
            cs s).2.1.rows = some r) ∧
      (∀ e ∈ (sendBulkEmailBatchesT vendor now tenantId provider cs
          s).2.2, ∀ id0 b a,
        e = EmailEvent.logUpdated id0 b a → allowedTransition b a) := by
  induction cs with
  | nil =>
      intro s hwf
      exact ⟨hwf, fun hj => hj, fun e he => by cases he⟩
  | cons c cs ih =>
      intro s hwf
      obtain ⟨hw1, hu1, he1⟩ := processEmailBatchT_ops vendor now tenantId
        provider c s hwf
      obtain ⟨ihw, ihu, ihe⟩ := ih _ hw1
      refine ⟨?_, ?_, ?_⟩
      · simpa only [sendBulkEmailBatchesT] using ihw
      · intro j r hj
        simp only [sendBulkEmailBatchesT]
        exact ihu (hu1 hj)
      · intro e he id0 b a heq
        simp only [sendBulkEmailBatchesT, List.mem_append] at he
        rcases he with h1 | h2
        · exact he1 e h1 id0 b a heq
        · exact ihe e h2 id0 b a heq

theorem retryFailedEmailsT_ops (vendor : EmailVendor) (now : Int)
    (limit : Nat) (s : EmailStore) (hwf : EmailStore.WF s) :
    EmailStore.WF (retryFailedEmailsT vendor now limit s).2.1 ∧
    (∀ {j : Nat} {r : EmailLog}, findEmailRow j s.rows = some r →
      r.status = Status.sent →
      findEmailRow j (retryFailedEmailsT vendor now limit s).2.1.rows =
        some r) ∧
    (∀ e ∈ (retryFailedEmailsT vendor now limit s).2.2, ∀ id0 b a,
      e = EmailEvent.logUpdated id0 b a → allowedTransition b a) := by
  have hsound := getFailedEmailLogsForRetry_sound now limit s
  have hfail : ∀ l ∈ getFailedEmailLogsForRetry now limit s, ∃ r,
      findEmailRow l.id s.rows = some r ∧ r.status = Status.failed := by
    intro l hl
    obtain ⟨hmem, hst, -⟩ := hsound l hl
    exact ⟨l, findEmailRow_of_mem_nodup hwf.1 hmem, hst⟩
  obtain ⟨ha, hb, hc, hd, he, hf, hg⟩ := retryEmailLoop_spec vendor now
    (getFailedEmailLogsForRetry now limit s) s hwf
    (getFailedEmailLogsForRetry_nodup now limit s hwf.1) hfail
  simp only [retryFailedEmailsT]
  refine ⟨⟨?_, ?_⟩, ?_, ?_⟩
  · rw [hf]
    exact hwf.1
  · intro r hr
    have hrid := List.mem_map_of_mem EmailLog.id hr
    rw [hf] at hrid
    obtain ⟨r0, hr0, hid⟩ := List.mem_map.mp hrid
    rw [he, ← hid]
    exact hwf.2 r0 hr0
  · intro j r hj hsent
    have hne : ∀ l ∈ getFailedEmailLogsForRetry now limit s, l.id ≠ j := by
      intro l hl hc2
      obtain ⟨hmem, hst, -⟩ := hsound l hl
      have hfind : findEmailRow j s.rows = some l :=
        hc2 ▸ findEmailRow_of_mem_nodup hwf.1 hmem
      rw [hj] at hfind
      cases hfind
      rw [hsent] at hst
      cases hst
    rw [hd j hne]
    exact hj
  · intro e he2 id0 b a heq
    rcases hg e he2 id0 b a heq with ⟨h1, h2⟩ | ⟨h1, h2⟩
    · exact Or.inr ⟨h1, h2⟩
    · exact Or.inl ⟨h1, h2⟩

theorem applyEmailOp_ops (vendor : EmailVendor) (now : Int) (op : EmailOp)
    (s : EmailStore) (hwf : EmailStore.WF s) :
    EmailStore.WF (applyEmailOp vendor now op s).1 ∧
    (∀ {j : Nat} {r : EmailLog}, findEmailRow j s.rows = some r →
      r.status = Status.sent →
      findEmailRow j (applyEmailOp vendor now op s).1.rows = some r) ∧
    (∀ e ∈ (applyEmailOp vendor now op s).2, ∀ id0 b a,
      e = EmailEvent.logUpdated id0 b a → allowedTransition b a) := by
  cases op with
  | sendOne d =>
      refine ⟨sendEmailT_WF vendor now d s hwf, ?_, ?_⟩
      · intro j r hj hsent
        exact sendEmailT_untouched vendor now d s hwf hj
      · intro e he id0 b a heq
        exact sendEmailT_updates vendor now d s hwf e he id0 b a heq
  | sendBulk emails tenantId provider batchSize delayMs =>
      obtain ⟨hw, hu, hev⟩ := sendBulkEmailBatchesT_ops vendor now tenantId
        provider (chunkList batchSize emails) s hwf
      refine ⟨hw, ?_, ?_⟩
      · intro j r hj hsent
        exact hu hj
      · intro e he id0 b a heq
        exact hev e he id0 b a heq
  | retryFailed limit =>
      exact retryFailedEmailsT_ops vendor now limit s hwf

/-- C3: across any sequence of service-level operations (sendOne, sendBulk,
retryFailed) on a well-formed store, every status update performed on an
existing row is one of pending to sent, pending to failed, or failed to
pending; in particular a row whose status is sent is never touched again:
its lookup is unchanged by the whole sequence. -/
theorem claim3_status_transitions_invariant (vendor : EmailVendor)
    (ops : List (Int × EmailOp)) (s : EmailStore)
    (hwf : EmailStore.WF s) :
    (∀ e ∈ (applyEmailOps vendor ops s).2, ∀ id0 b a,
       e = EmailEvent.logUpdated id0 b a → allowedTransition b a) ∧
    (∀ j r, findEmailRow j s.rows = some r → r.status = Status.sent →
       findEmailRow j (applyEmailOps vendor ops s).1.rows = some r) := by
  induction ops generalizing s with
  | nil =>
      constructor
      · intro e he
        cases he
      · intro j r hj hsent
        exact hj
  | cons p rest ih =>
      obtain ⟨hw, hu, hev⟩ := applyEmailOp_ops vendor p.1 p.2 s hwf
      obtain ⟨ihe, ihu⟩ := ih _ hw
      constructor
      · intro e he id0 b a heq
        simp only [applyEmailOps, List.mem_append] at he
        rcases he with h1 | h2
        · exact hev e h1 id0 b a heq
        · exact ihe e h2 id0 b a heq
      · intro j r hj hsent
        simp only [applyEmailOps]
        exact ihu j r (hu hj hsent) hsent

/-- A row already sent, used by the invariant witness. -/
def sentEmailRow : EmailLog :=
  { id := 1, tenantId := 1, toAddr := "done@example.com", subject := "s",
    body := "b", status := Status.sent, provider := some "smtp",
    errorMessage := none, createdAt := 0, updatedAt := 0 }

/-- Store holding one sent row. -/
def c3Store : EmailStore := { rows := [sentEmailRow], nextId := 2 }

/-- A sequence of service operations used by the invariant witness. -/
def c3Ops : List (Int × EmailOp) :=
  [(10, EmailOp.sendOne emailDataEx),
   (20, EmailOp.retryFailed 50),
   (30, EmailOp.sendBulk exEmails 1 (some "smtp") 2 1000)]

theorem claim3_witness :
    EmailStore.WF c3Store ∧
    findEmailRow 1 c3Store.rows = some sentEmailRow ∧
    sentEmailRow.status = Status.sent ∧
    findEmailRow 1
        (applyEmailOps emailVendorDown c3Ops c3Store).1.rows =
      some sentEmailRow := by
  have hwf : EmailStore.WF c3Store := by
    constructor
    · simp [c3Store, sentEmailRow]
    · intro r hr
      rcases List.mem_cons.mp hr with rfl | hr2
      · decide
      · cases hr2
  refine ⟨hwf, rfl, rfl, ?_⟩
  exact (claim3_status_transitions_invariant emailVendorDown c3Ops c3Store
    hwf).2 1 sentEmailRow rfl rfl

/-! Claim C6: pacing of sendBulkEmails.  The timing model below is derived
from the async control flow of the source: processEmailBatch awaits each
sendEmail before issuing the next one, so within a batch item j + 1 is
attempted exactly when item j completes (d gives the duration of one
item's processing); the main loop of sendBulkEmails pushes batch k's
promise without awaiting it and then awaits only the inter-batch delay, so
batch k is issued at time k * delayMs while earlier batches may still be
running.  Issue (attempt) times are in the same millisecond unit as
delayMs. -/

/-- Attempt times of one batch: the first item is attempted at start, each
next item when the previous completes. -/
def chunkSchedule {α : Type} (d : α → Nat) (start : Nat) :
    List α → List (α × Nat)
  | [] => []
  | x :: xs => (x, start) :: chunkSchedule d (start + d x) xs

/-- Attempt times of all batches: batch k is issued delayMs after batch
k - 1 was issued (not after it completed). -/
def bulkScheduleAux {α : Type} (d : α → Nat) (delayMs : Nat)
    (start : Nat) : List (List α) → List (List (α × Nat))
  | [] => []
  | c :: cs =>
      chunkSchedule d start c ::
        bulkScheduleAux d delayMs (start + delayMs) cs

/-- Attempt schedule of sendBulkEmails with per-item duration d. -/
def bulkSchedule {α : Type} (d : α → Nat) (delayMs batchSize : Nat)
    (items : List α) : List (List (α × Nat)) :=
  bulkScheduleAux d delayMs 0 (chunkList batchSize items)

/-- Per-item duration used in the pacing counterexample: every item takes
5 time units while the inter-batch delay is 1. -/
def c6dur : BulkEmailItem → Nat := fun _ => 5

/-- C6 counterexample: with items good1, bad1, good2, batchSize 2,
inter-batch delay 1, and every adapter call taking 5 units, the second item
of chunk 0 is attempted at time 5 while chunk 1 starts at time 1: the items
of a chunk are not attempted concurrently (their attempt times differ) and
chunk 1 starts before all of chunk 0 has been attempted, so the claim as
stated is false. -/
theorem claim6_counterexample :
    ¬ ((∀ c ∈ bulkSchedule c6dur 1 2 exEmails, ∀ p ∈ c, ∀ q ∈ c,
          p.2 = q.2) ∧
       List.Chain' (fun c1 c2 => ∀ p ∈ c1, ∀ q ∈ c2, p.2 ≤ q.2)
         (bulkSchedule c6dur 1 2 exEmails)) := by
  have hsched : bulkSchedule c6dur 1 2 exEmails =
      [[({ toAddr := "good1", subject := "s", body := "b", html := none },
          0),
        ({ toAddr := "bad1", subject := "s", body := "b", html := none },
          5)],
       [({ toAddr := "good2", subject := "s", body := "b", html := none },
          1)]] := by
    simp [bulkSchedule, bulkScheduleAux, chunkSchedule, chunkList,
      exEmails, c6dur]
  rintro ⟨hA, hB⟩
  rw [hsched] at hB
  have h5le1 := (List.chain'_cons.mp hB).1
    ({ toAddr := "bad1", subject := "s", body := "b", html := none }, 5)
    (by simp)
    ({ toAddr := "good2", subject := "s", body := "b", html := none }, 1)
    (by simp)
  omega

theorem chunkSchedule_chain {α : Type} (d : α → Nat) :
    ∀ (start : Nat) (l : List α),
      List.Chain' (fun p q => q.2 = p.2 + d p.1)
        (chunkSchedule d start l) := by
  intro start l
  induction l generalizing start with
  | nil => simp [chunkSchedule]
  | cons x xs ih =>
      simp only [chunkSchedule]
      rw [List.chain'_cons']
      constructor
      · intro b hb
        cases xs with
        | nil => simp [chunkSchedule] at hb
        | cons y ys =>
            simp only [chunkSchedule, List.head?_cons, Option.mem_def,
              Option.some_inj] at hb
            subst hb
            rfl
      · exact ih (start + d x)

theorem bulkScheduleAux_chain {α : Type} (d : α → Nat) (delayMs : Nat) :
    ∀ (start : Nat) (cs : List (List α)),
      List.Chain' (fun c1 c2 => ∀ p q, c1.head? = some p →
        c2.head? = some q → q.2 = p.2 + delayMs)
        (bulkScheduleAux d delayMs start cs) := by
  intro start cs
  induction cs generalizing start with
  | nil => simp [bulkScheduleAux]
  | cons c cs ih =>
      simp only [bulkScheduleAux]
      rw [List.chain'_cons']
      constructor
      · intro c2 hc2 p q hp hq
        cases cs with
        | nil => simp [bulkScheduleAux] at hc2
        | cons c3 cs2 =>
            simp only [bulkScheduleAux, List.head?_cons, Option.mem_def,
              Option.some_inj] at hc2
            subst hc2
            cases c with
            | nil => simp [chunkSchedule] at hp
            | cons x xs =>
                cases c3 with
                | nil => simp [chunkSchedule] at hq
                | cons y ys =>
                    simp only [chunkSchedule, List.head?_cons,
                      Option.some_inj] at hp hq
                    rw [← hp, ← hq]
      · exact ih (start + delayMs)

theorem bulkScheduleAux_mem {α : Type} (d : α → Nat) (delayMs : Nat) :
    ∀ (cs : List (List α)) (start : Nat) (c : List (α × Nat)),
      c ∈ bulkScheduleAux d delayMs start cs →
      ∃ st c0, c = chunkSchedule d st c0 := by
  intro cs
  induction cs with
  | nil =>
      intro start c hc
      cases hc
  | cons c1 cs ih =>
      intro start c hc
      rcases List.mem_cons.mp hc with rfl | h2
      · exact ⟨start, c1, rfl⟩
      · exact ih _ c h2

/-- C6 as amended: within a chunk the sendOne calls run sequentially (each
item is attempted exactly when the previous item of its chunk completes),
and chunk N + 1 is issued exactly delayMs after chunk N was issued — the
pacing delay alone separates chunk starts, without waiting for chunk N's
items to be attempted, so long-running chunks overlap the following ones;
the first chunk is issued at time 0. -/
theorem claim6_sequential_chunks_fixed_pacing {α : Type} (d : α → Nat)
    (delayMs batchSize : Nat) (items : List α) :
    (∀ c ∈ bulkSchedule d delayMs batchSize items,
       List.Chain' (fun p q => q.2 = p.2 + d p.1) c) ∧
    List.Chain' (fun c1 c2 => ∀ p q, c1.head? = some p →
      c2.head? = some q → q.2 = p.2 + delayMs)
      (bulkSchedule d delayMs batchSize items) ∧
    (∀ c p, (bulkSchedule d delayMs batchSize items).head? = some c →
       c.head? = some p → p.2 = 0) := by
  refine ⟨?_, bulkScheduleAux_chain d delayMs 0 _, ?_⟩
  · intro c hc
    obtain ⟨st, c0, rfl⟩ := bulkScheduleAux_mem d delayMs _ 0 c hc
    exact chunkSchedule_chain d st c0
  · intro c p hc hp
    unfold bulkSchedule at hc
    cases hcl : chunkList batchSize items with
    | nil =>
        rw [hcl] at hc
        cases hc
    | cons c1 cs =>
        rw [hcl] at hc
        simp only [bulkScheduleAux, List.head?_cons, Option.some_inj]
          at hc
        subst hc
        cases c1 with
        | nil => simp [chunkSchedule] at hp
        | cons x xs =>
            simp only [chunkSchedule, List.head?_cons, Option.some_inj]
              at hp
            rw [← hp]

theorem claim6_witness :
    (∀ c ∈ bulkSchedule c6dur 1 2 exEmails,
       List.Chain' (fun p q => q.2 = p.2 + c6dur p.1) c) ∧
    List.Chain' (fun c1 c2 => ∀ p q, c1.head? = some p →
      c2.head? = some q → q.2 = p.2 + 1)
      (bulkSchedule c6dur 1 2 exEmails) ∧
    (∀ c p, (bulkSchedule c6dur 1 2 exEmails).head? = some c →
       c.head? = some p → p.2 = 0) :=
  claim6_sequential_chunks_fixed_pacing c6dur 1 2 exEmails

/-! Claim C9: adapter construction versus credential validation
(EmailConfig.createTransporter, SmsConfig.createClient,
PushConfig.createClient / initializeFirebase). -/

/-- ASCII lower-casing of a provider name (provider.toLowerCase()). -/
def lowerAscii (s : String) : String := String.mk (s.data.map Char.toLower)

/-- Environment credential set read by EmailConfig.getProviderConfig. -/
structure EmailEnv where
  SMTP_HOST : Option String
  SMTP_PORT : Option String
  SMTP_USER : Option String
  SMTP_PASS : Option String
  GMAIL_USER : Option String
  GMAIL_APP_PASSWORD : Option String
  SENDGRID_API_KEY : Option String
  MAILGUN_SMTP_USER : Option String
  MAILGUN_SMTP_PASSWORD : Option String
deriving DecidableEq, Repr

/-- Transporter handle built by EmailConfig.createTransporter.  The
nodemailer createTransport call never throws on absent credentials; the
transporter.verify call that follows reports its outcome to a callback
that only logs, so construction succeeds regardless of the credential
set, which the handle records as possibly-absent fields. -/
inductive EmailTransporter
  | smtp (host user passwd : Option String)
  | gmail (user passwd : Option String)
  | sendgrid (apiKey : Option String)
  | mailgun (user passwd : Option String)
deriving DecidableEq, Repr

/-- EmailConfig.createTransporter: switch on the lower-cased provider name;
every supported branch constructs a transporter from whatever credentials
are present; only an unsupported name throws. -/
def createTransporter (provider : String) (env : EmailEnv) :
    Except String EmailTransporter :=
  match lowerAscii provider with
  | "smtp" => Except.ok
      (EmailTransporter.smtp env.SMTP_HOST env.SMTP_USER env.SMTP_PASS)
  | "gmail" => Except.ok
      (EmailTransporter.gmail env.GMAIL_USER env.GMAIL_APP_PASSWORD)
  | "sendgrid" => Except.ok (EmailTransporter.sendgrid env.SENDGRID_API_KEY)
  | "mailgun" => Except.ok
      (EmailTransporter.mailgun env.MAILGUN_SMTP_USER
        env.MAILGUN_SMTP_PASSWORD)
  | _ => Except.error ("Unsupported email provider: " ++ provider)

/-- Environment credential set read by SmsConfig.getProviderConfig. -/
structure SmsEnv where
  TWILIO_ACCOUNT_SID : Option String
  TWILIO_AUTH_TOKEN : Option String
  AWS_ACCESS_KEY_ID : Option String
  AWS_SECRET_ACCESS_KEY : Option String
  AWS_REGION : Option String
  MESSAGEBIRD_API_KEY : Option String
deriving DecidableEq, Repr

/-- Client handle built by SmsConfig.createClient.  The twilio branch wraps
the external twilio(accountSid, authToken) SDK constructor as a handle
recording the possibly-absent credentials (no theorem below relies on that
branch succeeding); the aws-sns and messagebird branches construct
in-module mock clients unconditionally, with no credential check at all. -/
inductive SmsClient
  | twilio (accountSid authToken : Option String)
  | awsSnsMock
  | messagebirdMock
deriving DecidableEq, Repr

/-- SmsConfig.createClient. -/
def smsCreateClient (provider : String) (env : SmsEnv) :
    Except String SmsClient :=
  match lowerAscii provider with
  | "twilio" => Except.ok
      (SmsClient.twilio env.TWILIO_ACCOUNT_SID env.TWILIO_AUTH_TOKEN)
  | "aws-sns" => Except.ok SmsClient.awsSnsMock
  | "messagebird" => Except.ok SmsClient.messagebirdMock
  | _ => Except.error ("Unsupported SMS provider: " ++ provider)

/-- Client handle built by PushConfig.createClient. -/
inductive PushClient
  | firebase (privateKey : String)
  | apnsMock
  | fcmMock
deriving DecidableEq, Repr

/-- PushConfig.createClient: the firebase branch (initializeFirebase)
checks serviceAccount.private_key and throws when it is absent — the only
provider whose construction validates a credential; apns and fcm return
mock clients; an unsupported name throws. -/
def pushCreateClient (provider : String) (privateKey : Option String) :
    Except String PushClient :=
  match lowerAscii provider with
  | "firebase" =>
      match privateKey with
      | none =>
          Except.error "Firebase service account configuration is missing"
      | some k => Except.ok (PushClient.firebase k)
  | "apns" => Except.ok PushClient.apnsMock
  | "fcm" => Except.ok PushClient.fcmMock
  | _ => Except.error
      ("Unsupported push notification provider: " ++ provider)

/-- Environment with every email credential absent. -/
def noEmailCreds : EmailEnv :=
  { SMTP_HOST := none, SMTP_PORT := none, SMTP_USER := none,
    SMTP_PASS := none, GMAIL_USER := none, GMAIL_APP_PASSWORD := none,
    SENDGRID_API_KEY := none, MAILGUN_SMTP_USER := none,
    MAILGUN_SMTP_PASSWORD := none }

/-- Environment with every SMS credential absent. -/
def noSmsCreds : SmsEnv :=
  { TWILIO_ACCOUNT_SID := none, TWILIO_AUTH_TOKEN := none,
    AWS_ACCESS_KEY_ID := none, AWS_SECRET_ACCESS_KEY := none,
    AWS_REGION := none, MESSAGEBIRD_API_KEY := none }

/-- C9 counterexample: with every required credential absent, the first
adapter construction still succeeds — the SMS aws-sns client is a mock
built with no credential check, and the email smtp transporter is
constructed from absent credentials (verification failure is only
logged) — so adapter construction does not fail fast on missing
credentials and does silently degrade, contrary to the claim. -/
theorem claim9_counterexample :
    noSmsCreds.AWS_ACCESS_KEY_ID = none ∧
    noSmsCreds.AWS_SECRET_ACCESS_KEY = none ∧
    noSmsCreds.AWS_REGION = none ∧
    smsCreateClient "aws-sns" noSmsCreds =
      Except.ok SmsClient.awsSnsMock ∧
    noEmailCreds.SMTP_HOST = none ∧
    noEmailCreds.SMTP_USER = none ∧
    noEmailCreds.SMTP_PASS = none ∧
    createTransporter "smtp" noEmailCreds =
      Except.ok (EmailTransporter.smtp none none none) :=
  ⟨rfl, rfl, rfl, rfl, rfl, rfl, rfl, rfl⟩

/-- C9 as amended: adapter construction performs no credential validation
for email and SMS providers — for every credential environment, including
one with all credentials absent, construction succeeds for each supported
provider (aws-sns and messagebird return in-module mocks); an unsupported
provider name fails with a generic unsupported-provider Error (there is no
ProviderConfigError type); only the push firebase provider validates a
credential, failing construction exactly when the service-account private
key is absent. -/
theorem claim9_no_validation_except_firebase :
    (∀ env : EmailEnv,
       createTransporter "smtp" env =
         Except.ok (EmailTransporter.smtp env.SMTP_HOST env.SMTP_USER
           env.SMTP_PASS) ∧
       createTransporter "gmail" env =
         Except.ok (EmailTransporter.gmail env.GMAIL_USER
           env.GMAIL_APP_PASSWORD) ∧
       createTransporter "sendgrid" env =
         Except.ok (EmailTransporter.sendgrid env.SENDGRID_API_KEY) ∧
       createTransporter "mailgun" env =
         Except.ok (EmailTransporter.mailgun env.MAILGUN_SMTP_USER
           env.MAILGUN_SMTP_PASSWORD)) ∧
    (∀ env : SmsEnv,
       smsCreateClient "aws-sns" env = Except.ok SmsClient.awsSnsMock ∧
       smsCreateClient "messagebird" env =
         Except.ok SmsClient.messagebirdMock ∧
       smsCreateClient "twilio" env =
         Except.ok (SmsClient.twilio env.TWILIO_ACCOUNT_SID
           env.TWILIO_AUTH_TOKEN)) ∧
    pushCreateClient "firebase" none =
      Except.error "Firebase service account configuration is missing" ∧
    (∀ k, pushCreateClient "firebase" (some k) =
       Except.ok (PushClient.firebase k)) ∧
    createTransporter "smtpx" noEmailCreds =
      Except.error "Unsupported email provider: smtpx" ∧
    smsCreateClient "nexmo" noSmsCreds =
      Except.error "Unsupported SMS provider: nexmo" :=
  ⟨fun env => ⟨rfl, rfl, rfl, rfl⟩,
   fun env => ⟨rfl, rfl, rfl⟩,
   rfl, fun k => rfl, rfl, rfl⟩
